import Mathlib

/-!
Shallow embedding of the scan-orchestration backend
(`backend/src/services/scanService.ts`, `scanCache.ts`, `zapService.ts`,
`scanHeartbeatMonitorService.ts`, `scheduleService.ts`) of the
ZAP-OWASP-Web-interface repository, together with proofs about the
claims of its specification.

Conventions:
* JavaScript `Date` values that are only created, copied and compared are
  modelled as `Int` milliseconds since the epoch.
* The schedule recurrence math mutates calendar components
  (`setDate` / `setMonth`), so schedule times are modelled by a calendar
  date type `DateT`; comparisons between `Date` objects in JS compare
  epoch milliseconds, which `DateT.toMs` reproduces.
* The in-memory `Map` of `ScanCacheService` and the database table are
  both modelled as lists of records; `Map.set` replaces the entry with
  the same key.
* Fallible collaborator calls (the ZAP engine, Prisma writes) are driven
  by explicit oracles: `Except` values for ZAP responses, `Bool` values
  for database-write success.
-/

namespace Zap

/-! ### Scan data model (`scanCache.ts`) -/

/-- Scan status enumeration, from `export type ScanStatus` in `scanCache.ts`. -/
inductive ScanStatus where
  | pending
  | pingingTarget
  | spiderScanning
  | activeScanning
  | completed
  | failed
deriving DecidableEq, Repr

/-- The `IN_PROGRESS_STATUSES` constant of `scanCache.ts`. -/
def inProgressStatuses : List ScanStatus :=
  [.pending, .pingingTarget, .spiderScanning, .activeScanning]

/-- The `isInProgress` helper of `scanCache.ts`
(`IN_PROGRESS_STATUSES.includes(status)`). -/
def isInProgress (s : ScanStatus) : Bool :=
  inProgressStatuses.contains s

/-- A scan record, from the `Scan` Prisma model / the records built by
`ScanCacheService.createScan`.  Timestamps are epoch milliseconds. -/
structure Scan where
  uuid : String
  url : String
  startedAt : Int
  completedAt : Option Int
  status : ScanStatus
  progress : Int
  spiderScanId : Option String
  activeScanId : Option String
  error : Option String
  scheduleId : Option String
  lastCheckedAt : Option Int
deriving DecidableEq, Repr

/-- A `Partial<Scan>` update object: a field that is `none` is absent from
the partial and left unchanged by the spread `{ ...scan, ...updates }`. -/
structure ScanUpdates where
  status : Option ScanStatus := none
  progress : Option Int := none
  completedAt : Option (Option Int) := none
  spiderScanId : Option (Option String) := none
  activeScanId : Option (Option String) := none
  error : Option (Option String) := none
  scheduleId : Option (Option String) := none
  lastCheckedAt : Option (Option Int) := none
deriving DecidableEq, Repr

/-- The object spread `{ ...scan, ...updates }` used by
`ScanCacheService.updateScan` and by the Prisma `data:` payloads. -/
def applyUpdates (s : Scan) (u : ScanUpdates) : Scan :=
  { s with
    status := u.status.getD s.status
    progress := u.progress.getD s.progress
    completedAt := u.completedAt.getD s.completedAt
    spiderScanId := u.spiderScanId.getD s.spiderScanId
    activeScanId := u.activeScanId.getD s.activeScanId
    error := u.error.getD s.error
    scheduleId := u.scheduleId.getD s.scheduleId
    lastCheckedAt := u.lastCheckedAt.getD s.lastCheckedAt }

/-! ### Store primitives

The scan cache is a `Map<string, Scan>`; the database table is keyed by
`uuid`.  Both tiers are lists of records looked up by uuid. -/

/-- Lookup by uuid (`Map.get` / `prisma.scan.findUnique`). -/
def lookupScan (l : List Scan) (uuid : String) : Option Scan :=
  l.find? (fun s => s.uuid == uuid)

/-- Membership test by uuid. -/
def hasUuid (l : List Scan) (uuid : String) : Bool :=
  l.any (fun s => s.uuid == uuid)

/-- `Map.set` with a fresh record: replaces any entry with the same key. -/
def setScan (l : List Scan) (s : Scan) : List Scan :=
  s :: l.filter (fun t => t.uuid != s.uuid)

/-- Apply a partial update to the record with the given uuid
(`ScanCacheService.updateScan` body / `prisma.scan.update`). -/
def mapScan (l : List Scan) (uuid : String) (u : ScanUpdates) : List Scan :=
  l.map (fun s => if s.uuid == uuid then applyUpdates s u else s)

/-- Delete by uuid (`scanMap.delete`). -/
def deleteScan (l : List Scan) (uuid : String) : List Scan :=
  l.filter (fun s => s.uuid != uuid)

/-! ### The two-tier world of `ScanService` -/

/-- Combined state of the scan cache tier, the database tier, and the
database-connection / write-success oracle.  `writeOks n` tells whether the
`n`-th attempted Prisma write in this world succeeds; `wcount` counts the
attempts made so far. -/
structure World where
  mem : List Scan
  db : List Scan
  connected : Bool
  writeOks : Nat → Bool
  wcount : Nat

/-- The `ScanCacheService.updateScan` model: returns the updated cache
and the updated record (`undefined` when the uuid is absent). -/
def cacheUpdate (mem : List Scan) (uuid : String) (u : ScanUpdates) :
    List Scan × Option Scan :=
  match lookupScan mem uuid with
  | none => (mem, none)
  | some s => (mapScan mem uuid u, some (applyUpdates s u))

/-- The `ScanService.updateScan` model.  The cache is always updated; the
database is updated only when connected and the cache update found a record
(`if (this.isDbConnected && this.prisma && updatedScan)`), and the Prisma
`data:` additionally sets `lastCheckedAt = new Date()` unless the update
marks the scan `failed` or `completed`.  A Prisma write on a missing uuid
throws and is caught, leaving the database unchanged; both that and a
connection-level write failure are folded into the success condition. -/
def updateScanW (w : World) (uuid : String) (u : ScanUpdates) (now : Int) : World :=
  let updateLastChecked := u.status ≠ some .failed ∧ u.status ≠ some .completed
  match cacheUpdate w.mem uuid u with
  | (mem1, none) => { w with mem := mem1 }
  | (mem1, some _) =>
    if w.connected then
      let ok := w.writeOks w.wcount && hasUuid w.db uuid
      let dbu := if updateLastChecked then { u with lastCheckedAt := some (some now) } else u
      { w with
        mem := mem1
        db := if ok then mapScan w.db uuid dbu else w.db
        wcount := w.wcount + 1 }
    else
      { w with mem := mem1 }

/-- The terminal update written by `ScanService.completeScan`. -/
def completeUpdates (now : Int) : ScanUpdates :=
  { completedAt := some (some now), status := some .completed, progress := some 100 }

/-- The `ScanService.completeScan` model: cache is stamped with the terminal
state; when connected, the terminal state is written to the database and the
record is evicted from the cache only after that write succeeded; on a write
failure (or a missing database row, which makes `prisma.scan.update` throw)
the record stays in the cache.  The database payload here does not touch
`lastCheckedAt` (a direct Prisma call, not `updateScan`). -/
def completeScanW (w : World) (uuid : String) (now : Int) : World :=
  match lookupScan w.mem uuid with
  | none => w
  | some _ =>
    let mem1 := mapScan w.mem uuid (completeUpdates now)
    if w.connected then
      let ok := w.writeOks w.wcount && hasUuid w.db uuid
      if ok then
        { w with
          mem := deleteScan mem1 uuid
          db := mapScan w.db uuid (completeUpdates now)
          wcount := w.wcount + 1 }
      else
        { w with mem := mem1, wcount := w.wcount + 1 }
    else
      { w with mem := mem1 }

/-- Comparison used for `activeScans.sort((a, b) => b.progress - a.progress)`
(and the `orderBy: { progress: 'desc' }` Prisma clause). -/
def progressDesc (a b : Scan) : Bool :=
  b.progress ≤ a.progress

/-- The `ScanService.getActiveScans` model.  Cache records with an
in-progress status come first; when the database is connected and the query
succeeds (`dbReadOk`), in-progress database records are appended unless a
record with the same uuid is already present; the final list is sorted by
progress descending. -/
def getActiveScansW (w : World) (dbReadOk : Bool) : List Scan :=
  let cacheActive := w.mem.filter (fun s => isInProgress s.status)
  let dbActive :=
    if w.connected && dbReadOk then
      (w.db.filter (fun s => isInProgress s.status)).mergeSort progressDesc
    else []
  let merged := dbActive.foldl
    (fun acc s => if acc.any (fun t => t.uuid == s.uuid) then acc else acc ++ [s])
    cacheActive
  merged.mergeSort progressDesc

/-! ### Scan creation (`ScanCacheService.createScan` + `ScanService.createScan`) -/

/-- The fresh record built by `ScanCacheService.createScan` (uuidv4 is an
input here; both `new Date()` calls happen at the same instant `now`). -/
def freshScan (uuid url : String) (now : Int) : Scan :=
  { uuid := uuid
    url := url
    startedAt := now
    completedAt := none
    status := .pending
    progress := 0
    spiderScanId := none
    activeScanId := none
    error := none
    scheduleId := none
    lastCheckedAt := some now }

/-- The `ScanService.createScan` model: the record is always created in the
cache; when connected it is also persisted with only
`uuid, url, startedAt, status, progress` (so the database row starts with
`lastCheckedAt = null`), and a persistence failure is caught and ignored. -/
def createScanW (w : World) (uuid url : String) (now : Int) : Scan × World :=
  let scan := freshScan uuid url now
  let mem1 := setScan w.mem scan
  if w.connected then
    let ok := w.writeOks w.wcount && ¬ hasUuid w.db uuid
    let dbRow := { scan with lastCheckedAt := none }
    ( scan
    , { w with
        mem := mem1
        db := if ok then dbRow :: w.db else w.db
        wcount := w.wcount + 1 } )
  else
    (scan, { w with mem := mem1 })

/-! ### The ZAP orchestration (`ScanService.startFullScan` / `processFullScan`)

`processFullScan` performs a sequence of awaited calls into `zapService`;
several of those calls `throw` on a malformed or empty engine response or a
network failure, and `processFullScan` itself contains no `try`/`catch`.
The engine's behaviour during one orchestration run is an oracle; the two
polling loops are unbounded in the source, so their poll results are finite
oracle lists and an exhausted list models a run still suspended in a loop. -/

/-- Outcome of (a phase of) one orchestration run: `done` means the code
path ran to its end, `threw e` that an uncaught exception `e` escaped
`processFullScan`, `running` that the run is still inside an unbounded
polling loop after the oracle's poll list was exhausted. -/
inductive Flow where
  | done
  | threw (msg : String)
  | running
deriving DecidableEq, Repr

/-- Oracle for the `zapService` calls made during one `processFullScan` run.
`reachable` is the result of `isUrlReachable` (which catches all its own
errors and returns a boolean); the other fields model calls that can throw. -/
structure ZapOracle where
  reachable : Bool
  spiderStart : Except String String
  spiderPolls : List (Except String Int)
  urlInTree : Except String Bool
  activeStart : Except String String
  activePolls : List (Except String Int)
  alerts : Except String (List String)

/-- The `waitForSpiderToComplete` loop: polls `checkSpiderStatus` until the
status reaches 100; a poll that throws escapes the loop. -/
def spiderWait : List (Except String Int) → Flow
  | [] => .running
  | .error e :: _ => .threw e
  | .ok st :: rest => if st ≥ 100 then .done else spiderWait rest

/-- The active-scan polling loop of `processFullScan`: each successful poll
clamps the status to 100 and persists progress plus the status
`completed`/`active-scanning` via `updateScan`; it loops until progress
reaches 100, and a poll that throws escapes the loop with the state written
so far. -/
def activeLoop (uuid : String) (now : Int) :
    List (Except String Int) → World → World × Flow
  | [], w => (w, .running)
  | .error e :: _, w => (w, .threw e)
  | .ok st :: rest, w =>
    let progress := min st 100
    let w1 := updateScanW w uuid
      { progress := some progress
        status := some (if progress ≥ 100 then .completed else .activeScanning) } now
    if progress ≥ 100 then (w1, .done) else activeLoop uuid now rest w1

/-- The `saveAlerts` model: alert rows only go to the database and any
failure is caught; no scan record is touched, so for the scan tiers this
only consumes one write attempt when connected. -/
def saveAlertsW (w : World) : World :=
  if w.connected then { w with wcount := w.wcount + 1 } else w

/-- The error message of the unreachable-target failure path. -/
def unreachableMsg : String :=
  "Unable to reach website. Please verify that the site you are trying to scan is online."

/-- The error message of the URL-not-in-scan-tree failure path. -/
def notFoundMsg : String :=
  "URL not found in scan tree after spider scan"

/-- The `ScanService.processFullScan` model, translated step for step from
the source.  Note that the source has no `try`/`catch`: any `throw` from a
`zapService` call aborts the run (`Flow.threw`) with whatever scan state had
been written up to that point. -/
def processFullScanW (w : World) (o : ZapOracle) (uuid : String) (now : Int) :
    World × Flow :=
  let w1 := updateScanW w uuid { status := some .pingingTarget } now
  if ¬ o.reachable then
    ( updateScanW w1 uuid
        { status := some .failed, error := some (some unreachableMsg) } now
    , .done )
  else
    match o.spiderStart with
    | .error e => (w1, .threw e)
    | .ok spiderId =>
      let w2 := updateScanW w1 uuid
        { status := some .spiderScanning, spiderScanId := some (some spiderId) } now
      match spiderWait o.spiderPolls with
      | .threw e => (w2, .threw e)
      | .running => (w2, .running)
      | .done =>
        match o.urlInTree with
        | .error e => (w2, .threw e)
        | .ok false =>
          ( updateScanW w2 uuid
              { status := some .failed, error := some (some notFoundMsg) } now
          , .done )
        | .ok true =>
          match o.activeStart with
          | .error e => (w2, .threw e)
          | .ok activeId =>
            let w3 := updateScanW w2 uuid
              { status := some .activeScanning
                activeScanId := some (some activeId)
                progress := some 0 } now
            match activeLoop uuid now o.activePolls w3 with
            | (w4, .threw e) => (w4, .threw e)
            | (w4, .running) => (w4, .running)
            | (w4, .done) =>
              match o.alerts with
              | .error e => (w4, .threw e)
              | .ok alerts =>
                let w5 := if alerts.length > 0 then saveAlertsW w4 else w4
                (completeScanW w5 uuid now, .done)

/-- The `ScanService.startFullScan` model: the record is created and
returned to the caller immediately; `processFullScan` is started without
`await` and without a rejection handler, so its outcome (including a
`Flow.threw`) is invisible to the caller of `startFullScan`. -/
def startFullScanW (w : World) (o : ZapOracle) (uuid url : String) (now : Int) :
    Scan × World × Flow :=
  let (scan, w1) := createScanW w uuid url now
  (scan, processFullScanW w1 o scan.uuid now)

/-! ### The stale-scan monitor (`scanHeartbeatMonitorService.ts`) -/

/-- The inactivity error message written by `checkForStaleScans`. -/
def staleMsg : String :=
  "Scan interrupted: No activity detected for an extended period"

/-- The update written by `checkForStaleScans` for a stale scan. -/
def staleUpdates (now : Int) : ScanUpdates :=
  { status := some .failed
    error := some (some staleMsg)
    completedAt := some (some now) }

/-- The staleness test of `checkForStaleScans`:
`lastCheckedAt || startedAt` is before `now - staleScanThresholdMs`. -/
def isStale (threshold now : Int) (s : Scan) : Bool :=
  s.lastCheckedAt.getD s.startedAt < now - threshold

/-- The `checkForStaleScans` sweep: every scan returned by `getActiveScans`
whose last activity is older than the threshold is marked failed through
`ScanService.updateScan`. -/
def checkForStaleScansW (w : World) (dbReadOk : Bool) (threshold now : Int) : World :=
  (getActiveScansW w dbReadOk).foldl
    (fun acc s => if isStale threshold now s then
        updateScanW acc s.uuid (staleUpdates now) now
      else acc)
    w

/-! ### Calendar dates (`scheduleService.ts` recurrence math)

`calculateNextRunTime` mutates a JS `Date` with `setDate` / `setMonth`
(server runs in UTC), while every comparison between `Date` values compares
epoch milliseconds.  A date is a calendar tuple; `DateT.toMs` is the civil
calendar to epoch-milliseconds conversion, so `toMs`-comparisons are exactly
the JS `Date` comparisons. -/

/-- A calendar instant: `month` is 0-based like JS `getMonth`, `day` is
1-based like `getDate`, `tod` is the millisecond offset within the day. -/
structure DateT where
  year : Int
  month : Int
  day : Int
  tod : Int
deriving DecidableEq, Repr

/-- Gregorian leap-year test. -/
def isLeap (y : Int) : Bool :=
  (y % 4 == 0 && y % 100 != 0) || y % 400 == 0

/-- Number of days of the (0-based) month `m` of year `y`. -/
def daysInMonth (y m : Int) : Int :=
  if m = 1 then (if isLeap y then 29 else 28)
  else if m = 3 ∨ m = 5 ∨ m = 8 ∨ m = 10 then 30
  else 31

/-- Days since 1970-01-01 of the civil date `y-m-d` (`m` 1-based here);
the standard civil-from-days inverse with floor division. -/
def daysFromCivil (y m d : Int) : Int :=
  let y' := if m ≤ 2 then y - 1 else y
  let era := y' / 400
  let yoe := y' - era * 400
  let mp := (m + 9) % 12
  let doy := (153 * mp + 2) / 5 + d - 1
  let doe := yoe * 365 + yoe / 4 - yoe / 100 + doy
  era * 146097 + doe - 719468

/-- Epoch milliseconds of a calendar instant (`Date.prototype.getTime`). -/
def DateT.toMs (dt : DateT) : Int :=
  daysFromCivil dt.year (dt.month + 1) dt.day * 86400000 + dt.tod

/-- JS `Date` comparison `a <= b` (compares epoch milliseconds). -/
def dle (a b : DateT) : Prop := a.toMs ≤ b.toMs

/-- JS `Date` comparison `a < b`. -/
def dlt (a b : DateT) : Prop := a.toMs < b.toMs

instance : DecidableRel dle := fun a b => inferInstanceAs (Decidable (a.toMs ≤ b.toMs))
instance : DecidableRel dlt := fun a b => inferInstanceAs (Decidable (a.toMs < b.toMs))

/-- Validity of a calendar tuple (what a normalized JS `Date` satisfies). -/
def DateT.Valid (d : DateT) : Prop :=
  0 ≤ d.month ∧ d.month < 12 ∧ 1 ≤ d.day ∧ d.day ≤ daysInMonth d.year d.month ∧
    0 ≤ d.tod ∧ d.tod < 86400000

/-- JS `d.setDate(d.getDate() + k)` for a small positive `k` (at most the
length of a month): the day advances, overflowing into the following month
at most once. -/
def addDaysJS (k : Int) (d : DateT) : DateT :=
  let nd := d.day + k
  if nd ≤ daysInMonth d.year d.month then
    { d with day := nd }
  else
    let nd' := nd - daysInMonth d.year d.month
    if d.month = 11 then { year := d.year + 1, month := 0, day := nd', tod := d.tod }
    else { d with month := d.month + 1, day := nd' }

/-- JS `d.setMonth(d.getMonth() + 1)`: the month advances (with year carry)
keeping the day number, and a day number beyond the end of the target month
normalizes by overflowing into the month after it. -/
def addOneMonthJS (d : DateT) : DateT :=
  let y2 := if d.month = 11 then d.year + 1 else d.year
  let m2 := if d.month = 11 then 0 else d.month + 1
  if d.day ≤ daysInMonth y2 m2 then
    { year := y2, month := m2, day := d.day, tod := d.tod }
  else
    let d3 := d.day - daysInMonth y2 m2
    if m2 = 11 then { year := y2 + 1, month := 0, day := d3, tod := d.tod }
    else { year := y2, month := m2 + 1, day := d3, tod := d.tod }

/-- JS `d.setDate(0)`: moves to the last day of the previous month. -/
def setDateZeroJS (d : DateT) : DateT :=
  let py := if d.month = 0 then d.year - 1 else d.year
  let pm := if d.month = 0 then 11 else d.month - 1
  { year := py, month := pm, day := daysInMonth py pm, tod := d.tod }

/-- One iteration of the `monthly` loop of `calculateNextRunTime`: add a
month; if the day-of-month changed (the start day does not exist in the
target month) the code calls `setDate(0)` to clamp to the last day of that
target month. -/
def monthlyStep (d : DateT) : DateT :=
  let r := addOneMonthJS d
  if r.day ≠ d.day then setDateZeroJS r else r

/-- Fuel-indexed model of the JS `while (nextRun <= now) nextRun = step(nextRun)`
loops (the source loops are unbounded; fuel is a modelling artifact). -/
def iterWhile (step : DateT → DateT) (now : DateT) : Nat → DateT → DateT
  | 0, d => d
  | n + 1, d => if dle d now then iterWhile step now n (step d) else d

/-- Repeat patterns accepted by the schedule API
(`z.enum(['none', 'daily', 'weekly', 'monthly'])`). -/
inductive RepeatPattern where
  | none
  | daily
  | weekly
  | monthly
deriving DecidableEq, Repr

/-- The `calculateNextRunTime` model.  For `none` the next run is the start
time; otherwise the start time is stepped by one day / seven days / one
calendar month until it is strictly after `now`. -/
def calculateNextRunTime (fuel : Nat) (startTime : DateT)
    (pattern : RepeatPattern) (now : DateT) : DateT :=
  match pattern with
  | .none => startTime
  | .daily => iterWhile (addDaysJS 1) now fuel startTime
  | .weekly => iterWhile (addDaysJS 7) now fuel startTime
  | .monthly => iterWhile monthlyStep now fuel startTime

/-! ### Schedule records and the schedule store (`scheduleService.ts`) -/

/-- A schedule record (the `Schedule` Prisma model as created and updated
through this service: `repeatPattern` is one of the four enum values, and
`nextRunAt` is set on every create/update). -/
structure Schedule where
  id : String
  url : String
  name : Option String
  startTime : DateT
  repeatPattern : RepeatPattern
  lastRunAt : Option DateT
  nextRunAt : Option DateT
  isActive : Bool
deriving DecidableEq, Repr

/-- The overlap test of `checkForOverlaps` against one stored schedule,
translated from the Prisma `where` clause.  `s`/`e` are the epoch
milliseconds of the new window; a `nextRunAt` filter on a row whose
`nextRunAt` is null does not match. -/
def overlapsOne (s e : Int) (sch : Schedule) : Bool :=
  (decide (s ≤ sch.startTime.toMs) && decide (sch.startTime.toMs < e))
  || (match sch.nextRunAt with
      | Option.some nra => decide (s < nra.toMs) && decide (nra.toMs ≤ e)
      | Option.none => false)
  || (decide (sch.startTime.toMs ≤ s) &&
      match sch.nextRunAt with
      | Option.some nra => decide (e ≤ nra.toMs)
      | Option.none => false)

/-- The `checkForOverlaps` model: `true` means the query found an active,
non-excluded schedule matching one of the three overlap shapes and the
service throws the overlap error.  A missing `endTime` falls back to
`startTime + 15` minutes. -/
def checkForOverlaps (schedules : List Schedule) (startTime : DateT)
    (endTime : Option DateT) (excludeId : Option String) : Bool :=
  let e := match endTime with
    | Option.some t => t.toMs
    | Option.none => startTime.toMs + 15 * 60 * 1000
  schedules.any (fun sch =>
    (match excludeId with
     | Option.some i => sch.id != i
     | Option.none => true)
    && sch.isActive
    && overlapsOne startTime.toMs e sch)

/-- The due-schedule filter of `processDueSchedules`, translated from the
Prisma `where` clause: active, and either never run with `startTime <= now`,
or `nextRunAt <= now` and not (a `none`-pattern schedule that has already
run). -/
def isDue (s : Schedule) (now : DateT) : Bool :=
  s.isActive &&
    ((s.lastRunAt.isNone && decide (dle s.startTime now))
     || (match s.nextRunAt with
         | Option.some t => decide (dle t now)
         | Option.none => false)
        && !(s.repeatPattern == .none && s.lastRunAt.isSome))

/-- The schedules selected by one `processDueSchedules` sweep. -/
def dueSchedules (l : List Schedule) (now : DateT) : List Schedule :=
  l.filter (fun s => isDue s now)

/-- The update payload accepted by the schedule API
(`ScheduleUpdateSchema = ScheduleCreateSchema.partial()`; zod strips every
other key, so `lastRunAt`/`nextRunAt` cannot arrive from a caller). -/
structure ScheduleUpdateIn where
  url : Option String := none
  name : Option String := none
  startTime : Option DateT := none
  repeatPattern : Option RepeatPattern := none
  isActive : Option Bool := none
deriving DecidableEq, Repr

/-- The `updateSchedule` model for an API-shaped payload.  When `startTime`
or `repeatPattern` is present the next run time is recomputed, and a
one-shot schedule that has already run is re-armed (its `lastRunAt`
cleared) exactly when the payload moves `startTime` strictly past `now`;
the overlap check guards the update (its gate `data.startTime ||
nextRunAt !== currentSchedule.nextRunAt` compares object references, so it
fires exactly when the branch above recomputed `nextRunAt` or `startTime`
was given).  `others` are the stored schedules the Prisma overlap query
runs against. -/
def updateScheduleW (fuel : Nat) (others : List Schedule) (cur : Schedule)
    (data : ScheduleUpdateIn) (now : DateT) : Except String Schedule :=
  let lastRunAt0 := cur.lastRunAt
  let recompute := data.startTime.isSome || data.repeatPattern.isSome
  let startTime := data.startTime.getD cur.startTime
  let pattern := data.repeatPattern.getD cur.repeatPattern
  let rearm : Bool :=
    recompute && pattern == .none && lastRunAt0.isSome &&
      (match data.startTime with
       | Option.some t => decide (dlt now t)
       | Option.none => false)
  let lastRunAt := if rearm then Option.none else lastRunAt0
  let nextRunAt :=
    if recompute then some (calculateNextRunTime fuel startTime pattern now)
    else cur.nextRunAt
  if data.startTime.isSome || recompute then
    if checkForOverlaps others startTime nextRunAt (some cur.id) then
      .error "Schedule overlaps with existing schedules"
    else
      .ok { cur with
        url := data.url.getD cur.url
        name := match data.name with
          | Option.some n => some n
          | Option.none => cur.name
        startTime := startTime
        repeatPattern := pattern
        isActive := data.isActive.getD cur.isActive
        nextRunAt := nextRunAt
        lastRunAt := lastRunAt }
  else
    .ok { cur with
      url := data.url.getD cur.url
      name := match data.name with
        | Option.some n => some n
        | Option.none => cur.name
      isActive := data.isActive.getD cur.isActive
      nextRunAt := nextRunAt
      lastRunAt := lastRunAt }

/-! ### Store lemmas -/

theorem applyUpdates_uuid (s : Scan) (u : ScanUpdates) :
    (applyUpdates s u).uuid = s.uuid := rfl

theorem lookupScan_mapScan_self (l : List Scan) (uuid : String) (u : ScanUpdates) :
    lookupScan (mapScan l uuid u) uuid =
      (lookupScan l uuid).map (fun s => applyUpdates s u) := by
  induction l with
  | nil => rfl
  | cons a l ih =>
    simp only [mapScan, List.map_cons, lookupScan, List.find?_cons] at ih ⊢
    cases h : (a.uuid == uuid) with
    | true =>
      have ha : a.uuid = uuid := by simpa using h
      have h2 : ((applyUpdates a u).uuid == uuid) = true := by
        rw [applyUpdates_uuid]; exact h
      simp only [h, if_true, h2]
      rfl
    | false =>
      have ha : ¬ a.uuid = uuid := by simpa using h
      simp only [h, if_false, Bool.false_eq_true, ha, ite_false]
      exact ih

theorem lookupScan_mapScan_ne (l : List Scan) {uuid v : String} (u : ScanUpdates)
    (h : v ≠ uuid) :
    lookupScan (mapScan l uuid u) v = lookupScan l v := by
  induction l with
  | nil => rfl
  | cons a l ih =>
    simp only [mapScan, List.map_cons, lookupScan, List.find?_cons] at ih ⊢
    cases ha : (a.uuid == uuid) with
    | true =>
      have ha' : a.uuid = uuid := by simpa using ha
      have hav : (a.uuid == v) = false := by
        simp [ha']; exact fun hv => h hv.symm
      have hav2 : ((applyUpdates a u).uuid == v) = false := by
        rw [applyUpdates_uuid]; exact hav
      simp only [ha, if_true, hav2, hav]
      exact ih
    | false =>
      have ha' : ¬ a.uuid = uuid := by simpa using ha
      cases hv : (a.uuid == v) with
      | true => simp only [ha, Bool.false_eq_true, if_false, ha', ite_false, hv]
      | false =>
        simp only [ha, Bool.false_eq_true, if_false, ha', ite_false, hv]
        exact ih

theorem lookupScan_setScan_self (l : List Scan) (s : Scan) :
    lookupScan (setScan l s) s.uuid = some s := by
  simp [lookupScan, setScan, List.find?_cons]

theorem lookupScan_deleteScan_self (l : List Scan) (uuid : String) :
    lookupScan (deleteScan l uuid) uuid = none := by
  induction l with
  | nil => rfl
  | cons a l ih =>
    cases h : (a.uuid == uuid) with
    | true =>
      have ha : a.uuid = uuid := by simpa using h
      have hd : deleteScan (a :: l) uuid = deleteScan l uuid := by
        simp [deleteScan, List.filter_cons, ha]
      rw [hd]; exact ih
    | false =>
      have ha : ¬ a.uuid = uuid := by simpa using h
      have hd : deleteScan (a :: l) uuid = a :: deleteScan l uuid := by
        simp [deleteScan, List.filter_cons, ha]
      rw [hd]
      unfold lookupScan at ih ⊢
      rw [List.find?_cons]
      simp only [h]
      exact ih

theorem lookupScan_eq_some {l : List Scan} {uuid : String} {s : Scan}
    (h : lookupScan l uuid = some s) : s ∈ l ∧ s.uuid = uuid := by
  have hm := List.mem_of_find?_eq_some h
  have hp := List.find?_some h
  exact ⟨hm, by simpa using hp⟩

/-! ### Frame lemmas for `updateScanW` -/

theorem updateScanW_mem_self (w : World) (uuid : String) (u : ScanUpdates) (now : Int) :
    lookupScan (updateScanW w uuid u now).mem uuid =
      (lookupScan w.mem uuid).map (fun s => applyUpdates s u) := by
  unfold updateScanW cacheUpdate
  cases h : lookupScan w.mem uuid with
  | none => simp [h]
  | some s =>
    simp only [h]
    by_cases hc : w.connected <;>
      simp [hc, lookupScan_mapScan_self, h]

theorem updateScanW_mem_ne (w : World) {uuid v : String} (u : ScanUpdates) (now : Int)
    (h : v ≠ uuid) :
    lookupScan (updateScanW w uuid u now).mem v = lookupScan w.mem v := by
  unfold updateScanW cacheUpdate
  cases hl : lookupScan w.mem uuid with
  | none => simp [hl]
  | some s =>
    simp only [hl]
    by_cases hc : w.connected <;>
      simp [hc, lookupScan_mapScan_ne _ _ h]

theorem updateScanW_connected (w : World) (uuid : String) (u : ScanUpdates) (now : Int) :
    (updateScanW w uuid u now).connected = w.connected := by
  unfold updateScanW cacheUpdate
  cases hl : lookupScan w.mem uuid with
  | none => simp
  | some s => by_cases hc : w.connected <;> simp [hc]

theorem updateScanW_db_not_connected (w : World) (uuid : String) (u : ScanUpdates)
    (now : Int) (h : w.connected = false) :
    (updateScanW w uuid u now).db = w.db := by
  unfold updateScanW cacheUpdate
  cases hl : lookupScan w.mem uuid with
  | none => simp
  | some s => simp [h]

/-- CLAIM C10 — For every existing scan uuid and every update partial that
does not itself contain a `lastCheckedAt` field, `updateScan` leaves the
in-memory record's `lastCheckedAt` unchanged; the `lastCheckedAt` timestamp
is advanced on non-terminal updates only in the durable-storage tier, so
with durable storage unavailable the memory record's last-activity
timestamp never advances. -/
theorem updateScan_lastCheckedAt_frame (w : World) (uuid : String) (u : ScanUpdates)
    (now : Int) (r : Scan)
    (hmem : lookupScan w.mem uuid = some r)
    (hu : u.lastCheckedAt = none) :
    (lookupScan (updateScanW w uuid u now).mem uuid
        = some (applyUpdates r u)
      ∧ (applyUpdates r u).lastCheckedAt = r.lastCheckedAt)
    ∧ (∀ d : Scan, w.connected = true → w.writeOks w.wcount = true →
        lookupScan w.db uuid = some d →
        u.status ≠ some .failed → u.status ≠ some .completed →
        lookupScan (updateScanW w uuid u now).db uuid
          = some { applyUpdates d u with lastCheckedAt := some now }) := by
  constructor
  · constructor
    · rw [updateScanW_mem_self, hmem]; rfl
    · simp only [applyUpdates, hu, Option.getD_none]
  · intro d hconn hwok hdb hsf hsc
    have hhas : hasUuid w.db uuid = true := by
      rcases lookupScan_eq_some hdb with ⟨hm, he⟩
      unfold hasUuid
      exact List.any_eq_true.mpr ⟨d, hm, by simp [he]⟩
    unfold updateScanW cacheUpdate
    rw [hmem]
    simp only [hconn, if_true, hwok, hhas, Bool.and_self, ne_eq, hsf,
      not_false_iff, hsc, and_self, if_true]
    have hfind : lookupScan
        (mapScan w.db uuid { u with lastCheckedAt := some (some now) }) uuid
        = some (applyUpdates d { u with lastCheckedAt := some (some now) }) := by
      rw [lookupScan_mapScan_self, hdb]; rfl
    rw [hfind]
    simp [applyUpdates]

/-- Witness for `updateScan_lastCheckedAt_frame` at a concrete world. -/
theorem updateScan_lastCheckedAt_frame_witness :
    lookupScan [freshScan "u1" "http://a" 5] "u1" = some (freshScan "u1" "http://a" 5) ∧
    ({ progress := some 10 : ScanUpdates }).lastCheckedAt = none ∧
    (lookupScan
        (updateScanW
          { mem := [freshScan "u1" "http://a" 5], db := [],
            connected := false, writeOks := fun _ => true, wcount := 0 }
          "u1" { progress := some 10 } 99).mem "u1"
        = some (applyUpdates (freshScan "u1" "http://a" 5) { progress := some 10 })
      ∧ (applyUpdates (freshScan "u1" "http://a" 5)
          { progress := some 10 }).lastCheckedAt
          = (freshScan "u1" "http://a" 5).lastCheckedAt) := by
  refine ⟨by decide, by decide, ?_⟩
  exact (updateScan_lastCheckedAt_frame
    { mem := [freshScan "u1" "http://a" 5], db := [],
      connected := false, writeOks := fun _ => true, wcount := 0 }
    "u1" { progress := some 10 } 99 (freshScan "u1" "http://a" 5)
    (by decide) (by decide)).1

theorem hasUuid_lookup {l : List Scan} {uuid : String} (h : hasUuid l uuid = true) :
    ∃ s, lookupScan l uuid = some s := by
  unfold hasUuid at h
  rcases List.any_eq_true.mp h with ⟨s, hs, hp⟩
  have : (lookupScan l uuid).isSome = true := by
    unfold lookupScan
    exact List.find?_isSome.mpr ⟨s, hs, hp⟩
  exact Option.isSome_iff_exists.mp this

/-- CLAIM C8 — For every scan uuid present in memory, `completeScan` writes
the terminal state (status `completed`, progress 100, `completedAt` set) to
durable storage before evicting the record from memory — so if the record
got evicted, the database holds the terminal state — and if the durable
write fails or durable storage is unavailable, the record is not evicted:
it remains in memory, stamped with the terminal state. -/
theorem completeScan_durable_before_evict (w : World) (uuid : String) (now : Int)
    (r : Scan) (hmem : lookupScan w.mem uuid = some r) :
    (lookupScan (completeScanW w uuid now).mem uuid = none →
      ∃ d, lookupScan (completeScanW w uuid now).db uuid = some d ∧
        d.status = .completed ∧ d.progress = 100 ∧ d.completedAt = some now)
    ∧ ((w.connected = false ∨ (w.writeOks w.wcount && hasUuid w.db uuid) = false) →
      lookupScan (completeScanW w uuid now).mem uuid
        = some (applyUpdates r (completeUpdates now))
      ∧ (applyUpdates r (completeUpdates now)).status = .completed
      ∧ (applyUpdates r (completeUpdates now)).progress = 100
      ∧ (applyUpdates r (completeUpdates now)).completedAt = some now) := by
  unfold completeScanW
  rw [hmem]
  by_cases hc : w.connected
  · by_cases hok : (w.writeOks w.wcount && hasUuid w.db uuid) = true
    · have hhas : hasUuid w.db uuid = true := by
        have hok2 := hok
        rw [Bool.and_eq_true] at hok2
        exact hok2.2
      rcases hasUuid_lookup hhas with ⟨d0, hd0⟩
      constructor
      · intro _
        refine ⟨applyUpdates d0 (completeUpdates now), ?_, by simp [applyUpdates,
          completeUpdates], by simp [applyUpdates, completeUpdates],
          by simp [applyUpdates, completeUpdates]⟩
        simp only [hc, if_true, hok]
        rw [lookupScan_mapScan_self, hd0]
        rfl
      · intro hfail
        rcases hfail with hfail | hfail
        · rw [hfail] at hc; exact absurd hc (by simp)
        · rw [hfail] at hok; exact absurd hok (by simp)
    · have hok' : (w.writeOks w.wcount && hasUuid w.db uuid) = false :=
        Bool.not_eq_true _ ▸ (by simpa using hok)
      constructor
      · intro hnone
        exfalso
        simp only [hc, if_true, hok', Bool.false_eq_true, if_false] at hnone
        rw [lookupScan_mapScan_self, hmem] at hnone
        simp at hnone
      · intro _
        simp only [hc, if_true, hok', Bool.false_eq_true, if_false]
        rw [lookupScan_mapScan_self, hmem]
        exact ⟨rfl, by simp [applyUpdates, completeUpdates],
          by simp [applyUpdates, completeUpdates],
          by simp [applyUpdates, completeUpdates]⟩
  · have hc' : w.connected = false := by simpa using hc
    constructor
    · intro hnone
      exfalso
      simp only [hc', Bool.false_eq_true, if_false] at hnone
      rw [lookupScan_mapScan_self, hmem] at hnone
      simp at hnone
    · intro _
      simp only [hc', Bool.false_eq_true, if_false]
      rw [lookupScan_mapScan_self, hmem]
      exact ⟨rfl, by simp [applyUpdates, completeUpdates],
        by simp [applyUpdates, completeUpdates],
        by simp [applyUpdates, completeUpdates]⟩

/-- Witness for `completeScan_durable_before_evict` at a concrete world
whose durable write fails. -/
theorem completeScan_durable_before_evict_witness :
    lookupScan [freshScan "u1" "http://a" 5] "u1" = some (freshScan "u1" "http://a" 5) ∧
    (lookupScan
        (completeScanW
          { mem := [freshScan "u1" "http://a" 5], db := [],
            connected := true, writeOks := fun _ => false, wcount := 0 }
          "u1" 77).mem "u1"
      = some (applyUpdates (freshScan "u1" "http://a" 5) (completeUpdates 77))) := by
  refine ⟨by decide, ?_⟩
  exact ((completeScan_durable_before_evict
    { mem := [freshScan "u1" "http://a" 5], db := [],
      connected := true, writeOks := fun _ => false, wcount := 0 }
    "u1" 77 (freshScan "u1" "http://a" 5) (by decide)).2 (Or.inr (by decide))).1

/-! ### Lemmas about `getActiveScansW` (CLAIM C9) -/

/-- Distinctness of uuids, the key invariant of both storage tiers
(the cache is a `Map` keyed by uuid, the table has `uuid` as primary key). -/
def UuidNodup (l : List Scan) : Prop :=
  l.Pairwise (fun a b => a.uuid ≠ b.uuid)

theorem uuidNodup_filter {l : List Scan} (p : Scan → Bool) (h : UuidNodup l) :
    UuidNodup (l.filter p) :=
  List.Pairwise.sublist (List.filter_sublist l) h

theorem uuidNodup_perm {l l' : List Scan} (hp : List.Perm l l') (h : UuidNodup l) :
    UuidNodup l' :=
  (List.Perm.pairwise_iff (fun hxy => Ne.symm hxy) hp).mp h

theorem dedupFold_eq (ds : List Scan)
    (hnd : ds.Pairwise (fun a b => a.uuid ≠ b.uuid)) :
    ∀ acc : List Scan,
      ds.foldl (fun acc s =>
          if acc.any (fun t => t.uuid == s.uuid) then acc else acc ++ [s]) acc
        = acc ++ ds.filter (fun s => !(acc.any (fun t => t.uuid == s.uuid))) := by
  induction ds with
  | nil => intro acc; simp
  | cons d rest ih =>
    intro acc
    have hd := (List.pairwise_cons.mp hnd).1
    have htl := (List.pairwise_cons.mp hnd).2
    cases h : acc.any (fun t => t.uuid == d.uuid) with
    | true =>
      simp only [List.foldl_cons, h, if_true, List.filter_cons, Bool.not_true,
        Bool.false_eq_true, if_false]
      exact ih htl acc
    | false =>
      simp only [List.foldl_cons, h, Bool.false_eq_true, if_false, List.filter_cons,
        Bool.not_false, if_true]
      rw [ih htl (acc ++ [d])]
      have hfilter :
          rest.filter (fun s => !((acc ++ [d]).any (fun t => t.uuid == s.uuid)))
            = rest.filter (fun s => !(acc.any (fun t => t.uuid == s.uuid))) := by
        apply List.filter_congr
        intro r hr
        have hne : d.uuid ≠ r.uuid := hd r hr
        simp [List.any_append, hne]
      rw [hfilter, List.append_cons, List.append_assoc]
      simp

/-- The cache-tier active records of `getActiveScans`. -/
def cacheActiveOf (w : World) : List Scan :=
  w.mem.filter (fun s => isInProgress s.status)

/-- The database-tier active records of `getActiveScans` (empty when the
database is disconnected or the query failed). -/
def dbActiveOf (w : World) (dbReadOk : Bool) : List Scan :=
  if w.connected && dbReadOk then
    (w.db.filter (fun s => isInProgress s.status)).mergeSort progressDesc
  else []

/-- Closed form of the de-duplicating merge inside `getActiveScans`. -/
def mergedActive (w : World) (dbReadOk : Bool) : List Scan :=
  cacheActiveOf w
    ++ (dbActiveOf w dbReadOk).filter
        (fun s => !((cacheActiveOf w).any (fun t => t.uuid == s.uuid)))

theorem dbActiveOf_nodup (w : World) (dbReadOk : Bool) (hd : UuidNodup w.db) :
    UuidNodup (dbActiveOf w dbReadOk) := by
  unfold dbActiveOf
  by_cases h : (w.connected && dbReadOk) = true
  · simp only [h, if_true]
    exact uuidNodup_perm
      (((w.db.filter (fun s => isInProgress s.status)).mergeSort_perm progressDesc).symm)
      (uuidNodup_filter _ hd)
  · simp only [h, if_false]
    exact List.Pairwise.nil

theorem getActiveScansW_eq (w : World) (dbReadOk : Bool) (hd : UuidNodup w.db) :
    getActiveScansW w dbReadOk = (mergedActive w dbReadOk).mergeSort progressDesc := by
  have hfold := dedupFold_eq (dbActiveOf w dbReadOk) (dbActiveOf_nodup w dbReadOk hd)
    (cacheActiveOf w)
  simp only [getActiveScansW]
  rw [show (if w.connected && dbReadOk then
      (w.db.filter (fun s => isInProgress s.status)).mergeSort progressDesc
    else []) = dbActiveOf w dbReadOk from rfl]
  rw [show w.mem.filter (fun s => isInProgress s.status) = cacheActiveOf w from rfl]
  rw [hfold]
  rfl

theorem progressDesc_trans (a b c : Scan) :
    progressDesc a b → progressDesc b c → progressDesc a c := by
  unfold progressDesc
  intro h1 h2
  simp only [decide_eq_true_eq] at *
  omega

theorem progressDesc_total (a b : Scan) : progressDesc a b || progressDesc b a := by
  unfold progressDesc
  rcases le_total b.progress a.progress with h | h <;> simp [h]

theorem mergedActive_nodup (w : World) (dbReadOk : Bool)
    (hm : UuidNodup w.mem) (hd : UuidNodup w.db) :
    UuidNodup (mergedActive w dbReadOk) := by
  unfold mergedActive UuidNodup
  rw [List.pairwise_append]
  refine ⟨uuidNodup_filter _ hm, uuidNodup_filter _ (dbActiveOf_nodup w dbReadOk hd), ?_⟩
  intro a ha b hb
  rcases List.mem_filter.mp hb with ⟨_, hbp⟩
  intro heq
  have : (cacheActiveOf w).any (fun t => t.uuid == b.uuid) = true :=
    List.any_eq_true.mpr ⟨a, ha, by simp [heq]⟩
  simp [this] at hbp

theorem mergedActive_mem (w : World) (dbReadOk : Bool) (s : Scan) :
    s ∈ mergedActive w dbReadOk ↔
      ((s ∈ w.mem ∧ isInProgress s.status = true)
        ∨ ((w.connected && dbReadOk) = true ∧ s ∈ w.db ∧ isInProgress s.status = true
            ∧ ∀ t ∈ w.mem, isInProgress t.status = true → t.uuid ≠ s.uuid)) := by
  unfold mergedActive cacheActiveOf dbActiveOf
  rw [List.mem_append]
  constructor
  · rintro (h | h)
    · exact Or.inl (by simpa using List.mem_filter.mp h)
    · rcases List.mem_filter.mp h with ⟨hmem, hpred⟩
      right
      by_cases hcd : (w.connected && dbReadOk) = true
      · simp only [hcd, if_true, List.mem_mergeSort] at hmem
        rcases List.mem_filter.mp hmem with ⟨hsdb, hsp⟩
        refine ⟨hcd, hsdb, hsp, ?_⟩
        intro t ht htp heq
        have : (w.mem.filter (fun x => isInProgress x.status)).any
            (fun x => x.uuid == s.uuid) = true := by
          refine List.any_eq_true.mpr ⟨t, ?_, by simp [heq]⟩
          exact List.mem_filter.mpr ⟨ht, htp⟩
        simp [this] at hpred
      · simp only [hcd, if_false] at hmem
        exact absurd hmem (List.not_mem_nil s)
  · rintro (⟨hms, hps⟩ | ⟨hcd, hsdb, hsp, hnone⟩)
    · exact Or.inl (List.mem_filter.mpr ⟨hms, hps⟩)
    · right
      apply List.mem_filter.mpr
      refine ⟨?_, ?_⟩
      · simp only [hcd, if_true, List.mem_mergeSort]
        exact List.mem_filter.mpr ⟨hsdb, hsp⟩
      · simp only [Bool.not_eq_true']
        rw [List.any_eq_false]
        intro t ht
        rcases List.mem_filter.mp ht with ⟨htm, htp⟩
        simp only [beq_iff_eq]
        exact hnone t htm htp

/-- CLAIM C9 — For every memory state and durable-storage state (each with
distinct uuids, as a `Map` and a primary-keyed table guarantee), the list of
active scans is the union of the non-terminal records of both tiers,
de-duplicated by uuid with the memory version taking precedence on
conflict, sorted by progress descending; it never contains two entries
with the same uuid even when a scan exists in both tiers. -/
theorem getActiveScans_spec (w : World) (dbReadOk : Bool)
    (hm : UuidNodup w.mem) (hd : UuidNodup w.db) :
    ((getActiveScansW w dbReadOk).Pairwise (fun a b => a.uuid ≠ b.uuid))
    ∧ (∀ s : Scan, s ∈ getActiveScansW w dbReadOk ↔
        ((s ∈ w.mem ∧ isInProgress s.status = true)
          ∨ ((w.connected && dbReadOk) = true ∧ s ∈ w.db ∧ isInProgress s.status = true
              ∧ ∀ t ∈ w.mem, isInProgress t.status = true → t.uuid ≠ s.uuid)))
    ∧ ((getActiveScansW w dbReadOk).Pairwise (fun a b => b.progress ≤ a.progress)) := by
  rw [getActiveScansW_eq w dbReadOk hd]
  refine ⟨?_, ?_, ?_⟩
  · exact uuidNodup_perm
      ((mergedActive w dbReadOk).mergeSort_perm progressDesc).symm
      (mergedActive_nodup w dbReadOk hm hd)
  · intro s
    rw [List.mem_mergeSort]
    exact mergedActive_mem w dbReadOk s
  · have hs := List.sorted_mergeSort
      (fun a b c => progressDesc_trans a b c)
      (fun a b => progressDesc_total a b) (mergedActive w dbReadOk)
    exact hs.imp (fun h => by simpa [progressDesc] using h)

/-- Witness for `getActiveScans_spec` at a concrete two-tier state in which
the same uuid is present in both tiers. -/
theorem getActiveScans_spec_witness :
    UuidNodup [freshScan "u1" "http://a" 5] ∧
    UuidNodup [{ freshScan "u1" "http://a" 5 with progress := 40 },
      { freshScan "u2" "http://b" 6 with progress := 70 }] ∧
    (getActiveScansW
        { mem := [freshScan "u1" "http://a" 5],
          db := [{ freshScan "u1" "http://a" 5 with progress := 40 },
            { freshScan "u2" "http://b" 6 with progress := 70 }],
          connected := true, writeOks := fun _ => true, wcount := 0 }
        true).Pairwise (fun a b => a.uuid ≠ b.uuid) := by
  refine ⟨?_, ?_, ?_⟩
  · simp [UuidNodup]
  · simp [UuidNodup, freshScan]
  · exact (getActiveScans_spec
      { mem := [freshScan "u1" "http://a" 5],
        db := [{ freshScan "u1" "http://a" 5 with progress := 40 },
          { freshScan "u2" "http://b" 6 with progress := 70 }],
        connected := true, writeOks := fun _ => true, wcount := 0 }
      true (by simp [UuidNodup]) (by simp [UuidNodup, freshScan])).1

/-! ### The stale-scan sweep (CLAIM C4) -/

theorem uuidNodup_eq_of_mem {l : List Scan} (h : UuidNodup l) {s t : Scan}
    (hs : s ∈ l) (ht : t ∈ l) (he : s.uuid = t.uuid) : s = t := by
  by_cases hst : s = t
  · exact hst
  · have hsym : Symmetric (fun a b : Scan => a.uuid ≠ b.uuid) := by
      intro x y hxy
      exact Ne.symm hxy
    exact absurd he (List.Pairwise.forall hsym h hs ht hst)

theorem staleFold_lookup (threshold now : Int) (u : String) :
    ∀ (acts : List Scan) (w0 : World),
      acts.Pairwise (fun a b => a.uuid ≠ b.uuid) →
      lookupScan
        (acts.foldl (fun acc s =>
            if isStale threshold now s then updateScanW acc s.uuid (staleUpdates now) now
            else acc) w0).mem u
        = if acts.any (fun s => s.uuid == u && isStale threshold now s) then
            (lookupScan w0.mem u).map (fun r => applyUpdates r (staleUpdates now))
          else lookupScan w0.mem u := by
  intro acts
  induction acts with
  | nil => intro w0 _; simp
  | cons a rest ih =>
    intro w0 hnd
    have hdRest := (List.pairwise_cons.mp hnd).1
    have htl := (List.pairwise_cons.mp hnd).2
    simp only [List.foldl_cons, List.any_cons]
    by_cases hstale : isStale threshold now a = true
    · simp only [hstale, if_true, Bool.and_true]
      by_cases hau : (a.uuid == u) = true
      · have hau' : a.uuid = u := by simpa using hau
        subst hau'
        have hrest : rest.any
            (fun s => s.uuid == a.uuid && isStale threshold now s) = false := by
          rw [List.any_eq_false]
          intro s hs
          have hne : a.uuid ≠ s.uuid := hdRest s hs
          have : (s.uuid == a.uuid) = false := by
            simp only [beq_eq_false_iff_ne, ne_eq]
            exact fun he => hne he.symm
          simp [this]
        rw [ih _ htl, hrest]
        simp only [Bool.false_eq_true, if_false, Bool.true_or, if_true]
        rw [updateScanW_mem_self]
        simp [hau]
      · have haf : (a.uuid == u) = false := by simpa using hau
        rw [ih _ htl]
        have hne : u ≠ a.uuid := by
          intro he
          rw [he] at haf
          simp at haf
        rw [updateScanW_mem_ne _ _ _ hne]
        simp only [haf, Bool.false_eq_true, Bool.false_or]
    · have hsf : isStale threshold now a = false := by simpa using hstale
      simp only [hsf, Bool.false_eq_true, if_false, Bool.and_false, Bool.false_or]
      exact ih w0 htl

/-- CLAIM C4 (amended) — On each stale-scan sweep, every non-terminal scan
record of the memory tier whose `max(lastCheckedAt, startedAt)` (i.e.
`lastCheckedAt || startedAt`; the cache never stores a `lastCheckedAt`
before `startedAt`) is older than the staleness threshold is transitioned
to `failed` with the inactivity error and `completedAt` set to the sweep
time; and the sweep leaves a terminal memory record untouched provided no
durable-storage record that is still non-terminal carries its uuid.  (A
stale scan present only in durable storage is not transitioned, and a
terminal memory record shadowed by a non-terminal durable row can be
overwritten — see the counterexample.) -/
theorem staleSweep_spec (w : World) (dbReadOk : Bool) (threshold now : Int)
    (hm : UuidNodup w.mem) (hd : UuidNodup w.db) (r : Scan) :
    (lookupScan w.mem r.uuid = some r → isInProgress r.status = true →
      isStale threshold now r = true →
      lookupScan (checkForStaleScansW w dbReadOk threshold now).mem r.uuid
        = some (applyUpdates r (staleUpdates now))
      ∧ (applyUpdates r (staleUpdates now)).status = .failed
      ∧ (applyUpdates r (staleUpdates now)).error = some staleMsg
      ∧ (applyUpdates r (staleUpdates now)).completedAt = some now)
    ∧ (lookupScan w.mem r.uuid = some r → isInProgress r.status = false →
      (∀ d ∈ w.db, d.uuid = r.uuid → isInProgress d.status = false) →
      lookupScan (checkForStaleScansW w dbReadOk threshold now).mem r.uuid = some r) := by
  have hspec := getActiveScans_spec w dbReadOk hm hd
  have hactNd : (getActiveScansW w dbReadOk).Pairwise (fun a b => a.uuid ≠ b.uuid) :=
    hspec.1
  constructor
  · intro hlook hprog hstale
    have hrmem : r ∈ w.mem := (lookupScan_eq_some hlook).1
    have hract : r ∈ getActiveScansW w dbReadOk :=
      (hspec.2.1 r).mpr (Or.inl ⟨hrmem, hprog⟩)
    have hany : (getActiveScansW w dbReadOk).any
        (fun s => s.uuid == r.uuid && isStale threshold now s) = true :=
      List.any_eq_true.mpr ⟨r, hract, by simp [hstale]⟩
    unfold checkForStaleScansW
    rw [staleFold_lookup threshold now r.uuid _ w hactNd, hany, if_pos rfl, hlook]
    exact ⟨rfl, rfl, rfl, rfl⟩
  · intro hlook hterm hdbterm
    have hrmem : r ∈ w.mem := (lookupScan_eq_some hlook).1
    have hnone : (getActiveScansW w dbReadOk).any
        (fun s => s.uuid == r.uuid && isStale threshold now s) = false := by
      rw [List.any_eq_false]
      intro s hs
      rcases (hspec.2.1 s).mp hs with ⟨hsm, hsp⟩ | ⟨_, hsdb, hsp, _⟩
      · intro hcontra
        rw [Bool.and_eq_true] at hcontra
        have hsu : s.uuid = r.uuid := by simpa using hcontra.1
        have : s = r := uuidNodup_eq_of_mem hm hsm hrmem hsu
        rw [this] at hsp
        rw [hsp] at hterm
        exact absurd hterm (by simp)
      · intro hcontra
        rw [Bool.and_eq_true] at hcontra
        have hsu : s.uuid = r.uuid := by simpa using hcontra.1
        have := hdbterm s hsdb hsu
        rw [hsp] at this
        exact absurd this (by simp)
    unfold checkForStaleScansW
    rw [staleFold_lookup threshold now r.uuid _ w hactNd, hnone]
    simp [hlook]

unseal List.merge List.mergeSort in
/-- Counterexample to CLAIM C4 as stated.  First concrete input: a stale
non-terminal scan that exists only in durable storage is not transitioned
(its durable row keeps status `active-scanning`), because
`ScanService.updateScan` skips the database write when the cache lookup
misses.  Second concrete input: a `completed` memory record that still
shadows a non-terminal durable row (a failed eviction) is overwritten to
`failed` by the sweep, so the sweep can modify a scan whose status is
already `completed`. -/
theorem staleSweep_counterexample :
    (isInProgress ({ freshScan "u9" "http://x" 0 with
          status := .activeScanning, progress := 50,
          lastCheckedAt := some 0 } : Scan).status = true
      ∧ isStale 1800000 10000000 { freshScan "u9" "http://x" 0 with
          status := .activeScanning, progress := 50, lastCheckedAt := some 0 } = true
      ∧ (checkForStaleScansW
          { mem := [],
            db := [{ freshScan "u9" "http://x" 0 with
              status := .activeScanning, progress := 50, lastCheckedAt := some 0 }],
            connected := true, writeOks := fun _ => true, wcount := 0 }
          true 1800000 10000000).db
        = [{ freshScan "u9" "http://x" 0 with
            status := .activeScanning, progress := 50, lastCheckedAt := some 0 }])
    ∧ ((lookupScan (checkForStaleScansW
          { mem := [{ freshScan "u9" "http://x" 0 with
              status := .completed, progress := 100, completedAt := some 10 }],
            db := [{ freshScan "u9" "http://x" 0 with
              status := .activeScanning, progress := 50, lastCheckedAt := some 0 }],
            connected := true, writeOks := fun _ => true, wcount := 0 }
          true 1800000 10000000).mem "u9").map Scan.status = some .failed) := by
  decide

/-- Witness for `staleSweep_spec` at a concrete memory-tier stale scan. -/
theorem staleSweep_spec_witness :
    lookupScan [{ freshScan "u1" "http://a" 0 with
        status := .activeScanning, lastCheckedAt := some 0 }] "u1"
      = some { freshScan "u1" "http://a" 0 with
        status := .activeScanning, lastCheckedAt := some 0 } ∧
    (lookupScan (checkForStaleScansW
        { mem := [{ freshScan "u1" "http://a" 0 with
            status := .activeScanning, lastCheckedAt := some 0 }],
          db := [], connected := false, writeOks := fun _ => true, wcount := 0 }
        true 1800000 10000000).mem "u1"
      = some (applyUpdates
          { freshScan "u1" "http://a" 0 with
            status := .activeScanning, lastCheckedAt := some 0 }
          (staleUpdates 10000000))) := by
  refine ⟨by decide, ?_⟩
  have h := (staleSweep_spec
    { mem := [{ freshScan "u1" "http://a" 0 with
        status := .activeScanning, lastCheckedAt := some 0 }],
      db := [], connected := false, writeOks := fun _ => true, wcount := 0 }
    true 1800000 10000000
    (by simp [UuidNodup]) (by simp [UuidNodup])
    { freshScan "u1" "http://a" 0 with
      status := .activeScanning, lastCheckedAt := some 0 }).1
    (by decide) (by decide) (by decide)
  exact h.1

/-! ### Orchestration lemmas (CLAIMS C1 and C2) -/

theorem saveAlertsW_mem (w : World) : (saveAlertsW w).mem = w.mem := by
  unfold saveAlertsW
  by_cases hc : w.connected <;> simp [hc]

theorem createScanW_mem (w : World) (uuid url : String) (now : Int) :
    lookupScan (createScanW w uuid url now).2.mem uuid
      = some (freshScan uuid url now) := by
  unfold createScanW
  by_cases hc : w.connected <;>
    simpa [hc] using lookupScan_setScan_self w.mem (freshScan uuid url now)

theorem createScanW_fst (w : World) (uuid url : String) (now : Int) :
    (createScanW w uuid url now).1 = freshScan uuid url now := by
  unfold createScanW
  by_cases hc : w.connected <;> simp [hc]

theorem completeScanW_mem_cases (w : World) (uuid : String) (now : Int) (r : Scan)
    (hmem : lookupScan w.mem uuid = some r) :
    lookupScan (completeScanW w uuid now).mem uuid = none ∨
    lookupScan (completeScanW w uuid now).mem uuid
      = some (applyUpdates r (completeUpdates now)) := by
  unfold completeScanW
  rw [hmem]
  by_cases hc : w.connected
  · by_cases hok : (w.writeOks w.wcount && hasUuid w.db uuid) = true
    · left
      simp only [hc, if_true, hok]
      exact lookupScan_deleteScan_self _ _
    · right
      have hok' : (w.writeOks w.wcount && hasUuid w.db uuid) = false := by
        simpa using hok
      simp only [hc, if_true, hok', Bool.false_eq_true, if_false]
      rw [lookupScan_mapScan_self, hmem]
      rfl
  · right
    have hc' : w.connected = false := by simpa using hc
    simp only [hc', Bool.false_eq_true, if_false]
    rw [lookupScan_mapScan_self, hmem]
    rfl

theorem activeLoop_inv (uuid : String) (now : Int) :
    ∀ (polls : List (Except String Int)) (w : World) (r : Scan),
      lookupScan w.mem uuid = some r →
      ∃ r', lookupScan (activeLoop uuid now polls w).1.mem uuid = some r'
        ∧ r'.error = r.error ∧ r'.completedAt = r.completedAt
        ∧ (r'.status = r.status ∨ r'.status = .activeScanning ∨ r'.status = .completed) := by
  intro polls
  induction polls with
  | nil =>
    intro w r hmem
    exact ⟨r, hmem, rfl, rfl, Or.inl rfl⟩
  | cons p rest ih =>
    intro w r hmem
    cases p with
    | error e =>
      exact ⟨r, hmem, rfl, rfl, Or.inl rfl⟩
    | ok st =>
      simp only [activeLoop]
      by_cases hst : min st 100 ≥ 100
      · simp only [if_pos hst]
        refine ⟨applyUpdates r
          { progress := some (min st 100), status := some .completed }, ?_, ?_, ?_, ?_⟩
        · rw [updateScanW_mem_self, hmem]; rfl
        · simp [applyUpdates]
        · simp [applyUpdates]
        · right; right; simp [applyUpdates]
      · simp only [if_neg hst]
        have hmem1 : lookupScan (updateScanW w uuid
            { progress := some (min st 100), status := some .activeScanning } now).mem
            uuid = some (applyUpdates r
              { progress := some (min st 100), status := some .activeScanning }) := by
          rw [updateScanW_mem_self, hmem]; rfl
        rcases ih _ _ hmem1 with ⟨r', hr', he', hc', hs'⟩
        refine ⟨r', hr', ?_, ?_, ?_⟩
        · rw [he']; simp [applyUpdates]
        · rw [hc']; simp [applyUpdates]
        · rcases hs' with h | h | h
          · right; left; rw [h]; simp [applyUpdates]
          · exact Or.inr (Or.inl h)
          · exact Or.inr (Or.inr h)

theorem processFullScan_record (w : World) (o : ZapOracle) (uuid : String) (now : Int)
    (r : Scan) (hmem : lookupScan w.mem uuid = some r)
    (herr : r.error = none) (hcom : r.completedAt = none) :
    ∀ r', lookupScan (processFullScanW w o uuid now).1.mem uuid = some r' →
      (r'.status = .failed →
          (r'.error = some unreachableMsg ∨ r'.error = some notFoundMsg)
          ∧ r'.completedAt = none)
      ∧ ((∃ e, (processFullScanW w o uuid now).2 = Flow.threw e) →
          r'.status ≠ .failed ∧ r'.error = none) := by
  have hmem1 : lookupScan (updateScanW w uuid { status := some .pingingTarget } now).mem
      uuid = some (applyUpdates r { status := some .pingingTarget }) := by
    rw [updateScanW_mem_self, hmem]; rfl
  set r1 := applyUpdates r { status := some .pingingTarget } with hr1
  have hr1e : r1.error = none := by simp [hr1, applyUpdates, herr]
  have hr1c : r1.completedAt = none := by simp [hr1, applyUpdates, hcom]
  have hr1s : r1.status = .pingingTarget := by simp [hr1, applyUpdates]
  by_cases hreach : o.reachable = true
  · -- reachable: the `if ¬ o.reachable` branch is skipped
    cases hss : o.spiderStart with
    | error e =>
      intro r' hlook
      simp only [processFullScanW, hreach, not_true, if_false, hss] at hlook ⊢
      rw [hmem1] at hlook
      cases hlook
      constructor
      · intro hfail
        rw [hr1s] at hfail
        exact absurd hfail (by simp)
      · intro _
        exact ⟨by rw [hr1s]; simp, hr1e⟩
    | ok sid =>
      have hmem2 : lookupScan (updateScanW
          (updateScanW w uuid { status := some .pingingTarget } now) uuid
          { status := some .spiderScanning, spiderScanId := some (some sid) } now).mem
          uuid = some (applyUpdates r1
            { status := some .spiderScanning, spiderScanId := some (some sid) }) := by
        rw [updateScanW_mem_self, hmem1]; rfl
      set r2 := applyUpdates r1
        { status := some .spiderScanning, spiderScanId := some (some sid) } with hr2
      have hr2e : r2.error = none := by simp [hr2, applyUpdates, hr1e]
      have hr2c : r2.completedAt = none := by simp [hr2, applyUpdates, hr1c]
      have hr2s : r2.status = .spiderScanning := by simp [hr2, applyUpdates]
      cases hsw : spiderWait o.spiderPolls with
      | threw e =>
        intro r' hlook
        simp only [processFullScanW, hreach, not_true, if_false, hss, hsw] at hlook ⊢
        rw [hmem2] at hlook
        cases hlook
        exact ⟨fun hfail => absurd (hr2s ▸ hfail) (by simp),
          fun _ => ⟨by rw [hr2s]; simp, hr2e⟩⟩
      | running =>
        intro r' hlook
        simp only [processFullScanW, hreach, not_true, if_false, hss, hsw] at hlook ⊢
        rw [hmem2] at hlook
        cases hlook
        exact ⟨fun hfail => absurd (hr2s ▸ hfail) (by simp),
          fun hth => absurd hth.choose_spec (by simp)⟩
      | done =>
        cases hut : o.urlInTree with
        | error e =>
          intro r' hlook
          simp only [processFullScanW, hreach, not_true, if_false, hss, hsw, hut]
            at hlook ⊢
          rw [hmem2] at hlook
          cases hlook
          exact ⟨fun hfail => absurd (hr2s ▸ hfail) (by simp),
            fun _ => ⟨by rw [hr2s]; simp, hr2e⟩⟩
        | ok found =>
          cases found with
          | false =>
            intro r' hlook
            simp only [processFullScanW, hreach, not_true, if_false, hss, hsw, hut]
              at hlook ⊢
            rw [updateScanW_mem_self, hmem2] at hlook
            cases hlook
            constructor
            · intro _
              refine ⟨Or.inr ?_, ?_⟩
              · simp [applyUpdates]
              · simp [applyUpdates, hr2c]
            · intro hth
              exact absurd hth.choose_spec (by simp)
          | true =>
            cases has : o.activeStart with
            | error e =>
              intro r' hlook
              simp only [processFullScanW, hreach, not_true, if_false, hss, hsw, hut,
                has] at hlook ⊢
              rw [hmem2] at hlook
              cases hlook
              exact ⟨fun hfail => absurd (hr2s ▸ hfail) (by simp),
                fun _ => ⟨by rw [hr2s]; simp, hr2e⟩⟩
            | ok aid =>
              have hmem3 : lookupScan (updateScanW (updateScanW
                  (updateScanW w uuid { status := some .pingingTarget } now) uuid
                  { status := some .spiderScanning,
                    spiderScanId := some (some sid) } now) uuid
                  { status := some .activeScanning,
                    activeScanId := some (some aid), progress := some 0 } now).mem uuid
                  = some (applyUpdates r2
                    { status := some .activeScanning
                      activeScanId := some (some aid)
                      progress := some 0 }) := by
                rw [updateScanW_mem_self, hmem2]; rfl
              set r3 := applyUpdates r2
                { status := some .activeScanning
                  activeScanId := some (some aid)
                  progress := some 0 } with hr3
              have hr3e : r3.error = none := by simp [hr3, applyUpdates, hr2e]
              have hr3c : r3.completedAt = none := by simp [hr3, applyUpdates, hr2c]
              rcases activeLoop_inv uuid now o.activePolls _ _ hmem3 with
                ⟨r4, hr4, hr4e, hr4c, hr4s⟩
              have hr4e' : r4.error = none := by rw [hr4e]; exact hr3e
              have hr4c' : r4.completedAt = none := by rw [hr4c]; exact hr3c
              have hr4s' : r4.status ≠ .failed := by
                rcases hr4s with h | h | h <;> rw [h] <;> simp [hr3, applyUpdates]
              rcases hloop : activeLoop uuid now o.activePolls (updateScanW (updateScanW
                  (updateScanW w uuid { status := some .pingingTarget } now) uuid
                  { status := some .spiderScanning,
                    spiderScanId := some (some sid) } now) uuid
                  { status := some .activeScanning,
                    activeScanId := some (some aid), progress := some 0 } now)
                with ⟨w4, fl⟩
              rw [hloop] at hr4
              cases fl with
              | threw e =>
                intro r' hlook
                simp only [processFullScanW, hreach, not_true, if_false, hss, hsw, hut,
                  has, hloop] at hlook ⊢
                rw [hr4] at hlook
                cases hlook
                exact ⟨fun hfail => absurd hfail hr4s', fun _ => ⟨hr4s', hr4e'⟩⟩
              | running =>
                intro r' hlook
                simp only [processFullScanW, hreach, not_true, if_false, hss, hsw, hut,
                  has, hloop] at hlook ⊢
                rw [hr4] at hlook
                cases hlook
                exact ⟨fun hfail => absurd hfail hr4s',
                  fun hth => absurd hth.choose_spec (by simp)⟩
              | done =>
                cases hga : o.alerts with
                | error e =>
                  intro r' hlook
                  simp only [processFullScanW, hreach, not_true, if_false, hss, hsw,
                    hut, has, hloop, hga] at hlook ⊢
                  rw [hr4] at hlook
                  cases hlook
                  exact ⟨fun hfail => absurd hfail hr4s', fun _ => ⟨hr4s', hr4e'⟩⟩
                | ok alerts =>
                  intro r' hlook
                  simp only [processFullScanW, hreach, not_true, if_false, hss, hsw,
                    hut, has, hloop, hga] at hlook ⊢
                  by_cases hlen : alerts.length > 0
                  · simp only [hlen, if_true] at hlook
                    have hmem5 : lookupScan (saveAlertsW w4).mem uuid = some r4 := by
                      rw [saveAlertsW_mem]; exact hr4
                    rcases completeScanW_mem_cases _ uuid now r4 hmem5 with hnone | hsome
                    · rw [hnone] at hlook; cases hlook
                    · rw [hsome] at hlook
                      cases hlook
                      constructor
                      · intro hfail
                        exact absurd hfail (by simp [applyUpdates, completeUpdates])
                      · intro hth
                        exact absurd hth.choose_spec (by simp)
                  · simp only [hlen, if_false] at hlook
                    rcases completeScanW_mem_cases _ uuid now r4 hr4 with hnone | hsome
                    · rw [hnone] at hlook; cases hlook
                    · rw [hsome] at hlook
                      cases hlook
                      constructor
                      · intro hfail
                        exact absurd hfail (by simp [applyUpdates, completeUpdates])
                      · intro hth
                        exact absurd hth.choose_spec (by simp)
  · -- unreachable: direct failure path
    have hreach' : o.reachable = false := by simpa using hreach
    intro r' hlook
    simp only [processFullScanW, hreach', Bool.false_eq_true, not_false_iff,
      if_true] at hlook ⊢
    rw [updateScanW_mem_self, hmem1] at hlook
    cases hlook
    constructor
    · intro _
      refine ⟨Or.inl ?_, ?_⟩
      · simp [applyUpdates]
      · simp [applyUpdates, hr1c]
    · intro hth
      exact absurd hth.choose_spec (by simp)

/-- CLAIM C1 (amended) — Once `startFullScan(url)` has created the initial
scan record, the two explicitly checked failures transition the record to
`failed` with an error recorded: an unreachable target (with the
unreachable-target message) and a URL missing from the scan tree after the
crawl (with the URL-not-found message); but an error THROWN by a scanner
call (malformed or empty response, network failure) aborts the
orchestration run and leaves the record in its last-written state with no
error recorded — usually a non-terminal status, though a throw from the
alert fetch after the polling loop finished leaves status `completed` with
`completedAt` still null — and a thrown error never transitions the record
to `failed`; in every case no error propagates to the caller of
`startFullScan`, which returns the freshly created `pending` record
unconditionally. -/
theorem startFullScan_spec (w : World) (o : ZapOracle) (uuid url : String) (now : Int) :
    ((startFullScanW w o uuid url now).1 = freshScan uuid url now)
    ∧ (o.reachable = false →
        ∃ r', lookupScan (startFullScanW w o uuid url now).2.1.mem uuid = some r'
          ∧ r'.status = .failed ∧ r'.error = some unreachableMsg)
    ∧ (o.reachable = true → ∀ sid, o.spiderStart = .ok sid →
        spiderWait o.spiderPolls = .done → o.urlInTree = .ok false →
        ∃ r', lookupScan (startFullScanW w o uuid url now).2.1.mem uuid = some r'
          ∧ r'.status = .failed ∧ r'.error = some notFoundMsg)
    ∧ (∀ e, (startFullScanW w o uuid url now).2.2 = Flow.threw e →
        ∀ r', lookupScan (startFullScanW w o uuid url now).2.1.mem uuid = some r' →
          r'.status ≠ .failed ∧ r'.error = none) := by
  have hw1 : lookupScan (createScanW w uuid url now).2.mem uuid
      = some (freshScan uuid url now) := createScanW_mem w uuid url now
  have hfst : (startFullScanW w o uuid url now).1 = freshScan uuid url now := by
    simp only [startFullScanW, createScanW_fst]
  have hsnd : (startFullScanW w o uuid url now).2
      = processFullScanW (createScanW w uuid url now).2 o uuid now := by
    simp only [startFullScanW, createScanW_fst]
    rfl
  have h1 : lookupScan (updateScanW (createScanW w uuid url now).2 uuid
      { status := some .pingingTarget } now).mem uuid
      = some (applyUpdates (freshScan uuid url now)
          { status := some .pingingTarget }) := by
    rw [updateScanW_mem_self, hw1]; rfl
  refine ⟨hfst, ?_, ?_, ?_⟩
  · intro hreach
    refine ⟨applyUpdates (applyUpdates (freshScan uuid url now)
        { status := some .pingingTarget })
        { status := some .failed, error := some (some unreachableMsg) },
      ?_, rfl, rfl⟩
    rw [hsnd]
    simp only [processFullScanW, hreach, Bool.false_eq_true, not_false_iff,
      if_true]
    rw [updateScanW_mem_self, h1]
    rfl
  · intro hreach sid hss hsw hut
    have h2 : lookupScan (updateScanW (updateScanW (createScanW w uuid url now).2 uuid
        { status := some .pingingTarget } now) uuid
        { status := some .spiderScanning, spiderScanId := some (some sid) } now).mem
        uuid = some (applyUpdates (applyUpdates (freshScan uuid url now)
          { status := some .pingingTarget })
          { status := some .spiderScanning, spiderScanId := some (some sid) }) := by
      rw [updateScanW_mem_self, h1]; rfl
    refine ⟨applyUpdates (applyUpdates (applyUpdates (freshScan uuid url now)
        { status := some .pingingTarget })
        { status := some .spiderScanning, spiderScanId := some (some sid) })
        { status := some .failed, error := some (some notFoundMsg) },
      ?_, rfl, rfl⟩
    rw [hsnd]
    simp only [processFullScanW, hreach, not_true, if_false, hss, hsw, hut]
    rw [updateScanW_mem_self, h2]
    rfl
  · intro e hth r' hlook
    rw [hsnd] at hth hlook
    exact (processFullScan_record (createScanW w uuid url now).2 o uuid now
      (freshScan uuid url now) hw1 rfl rfl r' hlook).2 ⟨e, hth⟩

/-- Counterexample to CLAIM C1 as stated: at the concrete input where the
target is reachable and `startSpiderScan` throws a network error, the
orchestration run aborts with the record still in `pinging-target` and no
error recorded — the error raised by the scanner call did not transition
the record to `failed`; and at the concrete input where every phase
succeeds but the alert fetch throws after the polling loop finished, the
run aborts with the record already written as `completed` by the loop's
last poll, with no error and `completedAt` still null. -/
theorem startFullScan_counterexample :
    ((startFullScanW
        { mem := [], db := [], connected := false,
          writeOks := fun _ => true, wcount := 0 }
        { reachable := true, spiderStart := .error "network failure",
          spiderPolls := [], urlInTree := .ok true, activeStart := .ok "1",
          activePolls := [], alerts := .ok [] }
        "u1" "http://a" 0).2.2 = Flow.threw "network failure")
    ∧ ((lookupScan (startFullScanW
        { mem := [], db := [], connected := false,
          writeOks := fun _ => true, wcount := 0 }
        { reachable := true, spiderStart := .error "network failure",
          spiderPolls := [], urlInTree := .ok true, activeStart := .ok "1",
          activePolls := [], alerts := .ok [] }
        "u1" "http://a" 0).2.1.mem "u1").map Scan.status = some .pingingTarget)
    ∧ ((lookupScan (startFullScanW
        { mem := [], db := [], connected := false,
          writeOks := fun _ => true, wcount := 0 }
        { reachable := true, spiderStart := .error "network failure",
          spiderPolls := [], urlInTree := .ok true, activeStart := .ok "1",
          activePolls := [], alerts := .ok [] }
        "u1" "http://a" 0).2.1.mem "u1").map Scan.error = some none)
    ∧ ((startFullScanW
        { mem := [], db := [], connected := false,
          writeOks := fun _ => true, wcount := 0 }
        { reachable := true, spiderStart := .ok "1", spiderPolls := [.ok 100],
          urlInTree := .ok true, activeStart := .ok "2",
          activePolls := [.ok 100], alerts := .error "alerts unavailable" }
        "u1b" "http://a" 0).2.2 = Flow.threw "alerts unavailable")
    ∧ ((lookupScan (startFullScanW
        { mem := [], db := [], connected := false,
          writeOks := fun _ => true, wcount := 0 }
        { reachable := true, spiderStart := .ok "1", spiderPolls := [.ok 100],
          urlInTree := .ok true, activeStart := .ok "2",
          activePolls := [.ok 100], alerts := .error "alerts unavailable" }
        "u1b" "http://a" 0).2.1.mem "u1b").map Scan.status = some .completed)
    ∧ ((lookupScan (startFullScanW
        { mem := [], db := [], connected := false,
          writeOks := fun _ => true, wcount := 0 }
        { reachable := true, spiderStart := .ok "1", spiderPolls := [.ok 100],
          urlInTree := .ok true, activeStart := .ok "2",
          activePolls := [.ok 100], alerts := .error "alerts unavailable" }
        "u1b" "http://a" 0).2.1.mem "u1b").map Scan.error = some none)
    ∧ ((lookupScan (startFullScanW
        { mem := [], db := [], connected := false,
          writeOks := fun _ => true, wcount := 0 }
        { reachable := true, spiderStart := .ok "1", spiderPolls := [.ok 100],
          urlInTree := .ok true, activeStart := .ok "2",
          activePolls := [.ok 100], alerts := .error "alerts unavailable" }
        "u1b" "http://a" 0).2.1.mem "u1b").map Scan.completedAt = some none) := by
  decide

/-- Witness for `startFullScan_spec` at a concrete unreachable-target run
and a concrete URL-not-in-scan-tree run. -/
theorem startFullScan_spec_witness :
    (∃ r', lookupScan (startFullScanW
        { mem := [], db := [], connected := false,
          writeOks := fun _ => true, wcount := 0 }
        { reachable := false, spiderStart := .ok "1", spiderPolls := [],
          urlInTree := .ok true, activeStart := .ok "2", activePolls := [],
          alerts := .ok [] }
        "u1" "http://a" 0).2.1.mem "u1" = some r'
      ∧ r'.status = .failed ∧ r'.error = some unreachableMsg)
    ∧ (∃ r', lookupScan (startFullScanW
        { mem := [], db := [], connected := false,
          writeOks := fun _ => true, wcount := 0 }
        { reachable := true, spiderStart := .ok "1", spiderPolls := [.ok 100],
          urlInTree := .ok false, activeStart := .ok "2", activePolls := [],
          alerts := .ok [] }
        "u1" "http://a" 0).2.1.mem "u1" = some r'
      ∧ r'.status = .failed ∧ r'.error = some notFoundMsg) :=
  ⟨(startFullScan_spec
      { mem := [], db := [], connected := false,
        writeOks := fun _ => true, wcount := 0 }
      { reachable := false, spiderStart := .ok "1", spiderPolls := [],
        urlInTree := .ok true, activeStart := .ok "2", activePolls := [],
        alerts := .ok [] }
      "u1" "http://a" 0).2.1 rfl,
    (startFullScan_spec
      { mem := [], db := [], connected := false,
        writeOks := fun _ => true, wcount := 0 }
      { reachable := true, spiderStart := .ok "1", spiderPolls := [.ok 100],
        urlInTree := .ok false, activeStart := .ok "2", activePolls := [],
        alerts := .ok [] }
      "u1" "http://a" 0).2.2.1 rfl "1" rfl (by decide) rfl⟩

/-- CLAIM C2 (amended) — A scan record left with status `failed` by an
orchestration run always carries a non-null error, but the orchestration's
failure transitions leave `completedAt` null; the stale monitor's failure
transition writes both a non-null error and `completedAt`; `failed` is not
permanent: `updateScan` applies whatever status an update carries with no
guard on the record's current status, so a heartbeat from a still-running
polling loop overwrites a monitor-written `failed` back to
`active-scanning`; the stale sweep itself, however, never moves a record
whose status is already `failed` away from `failed`. -/
theorem failed_record_spec (w : World) (o : ZapOracle) (uuid url : String) (now : Int)
    (wS : World) (dbReadOk : Bool) (threshold nowS : Int) (rS : Scan)
    (hmS : UuidNodup wS.mem) (hdS : UuidNodup wS.db) :
    (∀ r', lookupScan (startFullScanW w o uuid url now).2.1.mem uuid = some r' →
        r'.status = .failed → r'.error ≠ none ∧ r'.completedAt = none)
    ∧ ((applyUpdates rS (staleUpdates nowS)).status = .failed
        ∧ (applyUpdates rS (staleUpdates nowS)).error = some staleMsg
        ∧ (applyUpdates rS (staleUpdates nowS)).completedAt = some nowS)
    ∧ (lookupScan wS.mem rS.uuid = some rS → rS.status = .failed →
        ∀ r', lookupScan (checkForStaleScansW wS dbReadOk threshold nowS).mem rS.uuid
            = some r' → r'.status = .failed)
    ∧ (∀ (wU : World) (uuidU : String) (u : ScanUpdates) (nowU : Int)
        (rU : Scan) (st : ScanStatus),
        lookupScan wU.mem uuidU = some rU → u.status = some st →
        ∃ r', lookupScan (updateScanW wU uuidU u nowU).mem uuidU = some r'
          ∧ r'.status = st) := by
  have hw1 : lookupScan (createScanW w uuid url now).2.mem uuid
      = some (freshScan uuid url now) := createScanW_mem w uuid url now
  have hsnd : (startFullScanW w o uuid url now).2
      = processFullScanW (createScanW w uuid url now).2 o uuid now := by
    simp only [startFullScanW, createScanW_fst]
    rfl
  refine ⟨?_, ⟨rfl, rfl, rfl⟩, ?_, ?_⟩
  · intro r' hlook hfail
    rw [hsnd] at hlook
    have h := (processFullScan_record (createScanW w uuid url now).2 o uuid now
      (freshScan uuid url now) hw1 rfl rfl r' hlook).1 hfail
    rcases h with ⟨he, hc⟩
    refine ⟨?_, hc⟩
    rcases he with he | he <;> simp [he]
  · intro hlook hfail r' hlook'
    have hactNd := (getActiveScans_spec wS dbReadOk hmS hdS).1
    unfold checkForStaleScansW at hlook'
    rw [staleFold_lookup threshold nowS rS.uuid _ wS hactNd] at hlook'
    by_cases hany : ((getActiveScansW wS dbReadOk).any
        (fun s => s.uuid == rS.uuid && isStale threshold nowS s)) = true
    · rw [hany, if_pos rfl, hlook] at hlook'
      simp only [Option.map_some'] at hlook'
      cases hlook'
      rfl
    · have hany' : ((getActiveScansW wS dbReadOk).any
          (fun s => s.uuid == rS.uuid && isStale threshold nowS s)) = false := by
        simpa using hany
      rw [hany'] at hlook'
      simp only [Bool.false_eq_true, if_false] at hlook'
      rw [hlook] at hlook'
      cases hlook'
      exact hfail
  · intro wU uuidU u nowU rU st hlookU hst
    refine ⟨applyUpdates rU u, ?_, ?_⟩
    · rw [updateScanW_mem_self, hlookU]
      rfl
    · simp [applyUpdates, hst]

/-- Counterexample to CLAIM C2 as stated: the unreachable-target failure
path produces a record with status `failed` whose `completedAt` is null,
so a `failed` scan does not always have a set `completedAt`; and `failed`
is not permanent: after the stale monitor's update marks a concrete record
`failed`, one more poll of the still-running active-scan loop (a heartbeat
through `updateScan`, which has no status guard) overwrites the record's
status back to `active-scanning`. -/
theorem failed_record_counterexample :
    ((lookupScan (startFullScanW
        { mem := [], db := [], connected := false,
          writeOks := fun _ => true, wcount := 0 }
        { reachable := false, spiderStart := .ok "1", spiderPolls := [],
          urlInTree := .ok true, activeStart := .ok "2", activePolls := [],
          alerts := .ok [] }
        "u2" "http://b" 0).2.1.mem "u2").map Scan.status = some .failed)
    ∧ ((lookupScan (startFullScanW
        { mem := [], db := [], connected := false,
          writeOks := fun _ => true, wcount := 0 }
        { reachable := false, spiderStart := .ok "1", spiderPolls := [],
          urlInTree := .ok true, activeStart := .ok "2", activePolls := [],
          alerts := .ok [] }
        "u2" "http://b" 0).2.1.mem "u2").map Scan.completedAt = some none)
    ∧ ((lookupScan (startFullScanW
        { mem := [], db := [], connected := false,
          writeOks := fun _ => true, wcount := 0 }
        { reachable := false, spiderStart := .ok "1", spiderPolls := [],
          urlInTree := .ok true, activeStart := .ok "2", activePolls := [],
          alerts := .ok [] }
        "u2" "http://b" 0).2.1.mem "u2").map Scan.error
        = some (some unreachableMsg))
    ∧ ((lookupScan (updateScanW
        { mem := [freshScan "u2b" "http://b" 0], db := [], connected := false,
          writeOks := fun _ => true, wcount := 0 }
        "u2b" (staleUpdates 100) 100).mem "u2b").map Scan.status = some .failed)
    ∧ ((lookupScan (activeLoop "u2b" 200 [.ok 50] (updateScanW
        { mem := [freshScan "u2b" "http://b" 0], db := [], connected := false,
          writeOks := fun _ => true, wcount := 0 }
        "u2b" (staleUpdates 100) 100)).1.mem "u2b").map Scan.status
        = some .activeScanning) := by
  decide

/-- Witness for `failed_record_spec` at a concrete unreachable-target run:
the concrete failed record of that run has a non-null error and a null
`completedAt`. -/
theorem failed_record_spec_witness :
    (applyUpdates (applyUpdates (freshScan "u3" "http://c" 0)
        { status := some .pingingTarget })
        { status := some .failed, error := some (some unreachableMsg) }).error ≠ none
    ∧ (applyUpdates (applyUpdates (freshScan "u3" "http://c" 0)
        { status := some .pingingTarget })
        { status := some .failed,
          error := some (some unreachableMsg) }).completedAt = none :=
  (failed_record_spec
    { mem := [], db := [], connected := false,
      writeOks := fun _ => true, wcount := 0 }
    { reachable := false, spiderStart := .ok "1", spiderPolls := [],
      urlInTree := .ok true, activeStart := .ok "2", activePolls := [],
      alerts := .ok [] }
    "u3" "http://c" 0
    { mem := [], db := [], connected := false,
      writeOks := fun _ => true, wcount := 0 }
    true 1800000 10000000 (freshScan "u3" "http://c" 0)
    (by simp [UuidNodup]) (by simp [UuidNodup])).1
    (applyUpdates (applyUpdates (freshScan "u3" "http://c" 0)
      { status := some .pingingTarget })
      { status := some .failed, error := some (some unreachableMsg) })
    (by decide) (by decide)

/-! ### Schedule overlap validation (CLAIM C3) -/

/-- The effective end of a schedule window
(`endTime || new Date(startTime.getTime() + 15 * 60 * 1000)`). -/
def effectiveEnd (startTime : DateT) (endTime : Option DateT) : Int :=
  match endTime with
  | Option.some t => t.toMs
  | Option.none => startTime.toMs + 15 * 60 * 1000

/-- The claim's notion of window intersection: the new window `[s, e]`
starts inside the existing window `[S, E]`, ends inside it, or encloses it
(touching endpoints excluded). -/
def claimOverlap (s e S E : Int) : Prop :=
  (S ≤ s ∧ s < E) ∨ (S < e ∧ e ≤ E) ∨ (s ≤ S ∧ E ≤ e)

theorem overlapsOne_iff (s e : Int) (sch : Schedule) (E : DateT)
    (hE : sch.nextRunAt = some E) (hSE : sch.startTime.toMs ≤ E.toMs)
    (hse : s ≤ e) :
    overlapsOne s e sch = true ↔ claimOverlap s e sch.startTime.toMs E.toMs := by
  unfold overlapsOne claimOverlap
  rw [hE]
  simp only [Bool.or_eq_true, Bool.and_eq_true, decide_eq_true_eq]
  omega

/-- Concrete stored schedule with window 10:00-10:15 (on 2024-01-01) used
in the claim's examples. -/
def exampleSchedule : Schedule :=
  { id := "s1"
    url := "http://a"
    name := none
    startTime := DateT.mk 2024 0 1 36000000
    repeatPattern := .none
    lastRunAt := none
    nextRunAt := some (DateT.mk 2024 0 1 36900000)
    isActive := true }

/-- CLAIM C3 — Schedule create/update is rejected with an overlap error
exactly when the new schedule's effective window
`[startTime, nextRunAt-or-startTime+15min]` intersects the window of some
other active schedule, under the three shapes new-starts-inside-existing,
new-ends-inside-existing, new-encloses-existing; in particular windows
`[10:00, 10:15]` and `[10:10, 10:25]` are rejected as overlapping while
`[10:00, 10:15]` and `[10:15, 10:30]` are accepted (touching endpoints do
not overlap).  (Stored schedules are assumed well-formed: `nextRunAt` is
set — every create/update writes it — and not before `startTime`.) -/
theorem checkForOverlaps_spec :
    (∀ (schedules : List Schedule) (startTime : DateT) (endTime : Option DateT)
        (excludeId : Option String),
      (∀ sch ∈ schedules, ∃ E, sch.nextRunAt = some E
        ∧ sch.startTime.toMs ≤ E.toMs) →
      startTime.toMs ≤ effectiveEnd startTime endTime →
      (checkForOverlaps schedules startTime endTime excludeId = true ↔
        ∃ sch ∈ schedules, sch.isActive = true
          ∧ (∀ i, excludeId = some i → sch.id ≠ i)
          ∧ ∃ E, sch.nextRunAt = some E
            ∧ claimOverlap startTime.toMs (effectiveEnd startTime endTime)
                sch.startTime.toMs E.toMs))
    ∧ (checkForOverlaps [exampleSchedule]
        (DateT.mk 2024 0 1 36600000) (some (DateT.mk 2024 0 1 37500000)) none = true)
    ∧ (checkForOverlaps [exampleSchedule]
        (DateT.mk 2024 0 1 36900000) (some (DateT.mk 2024 0 1 37800000)) none
        = false) := by
  refine ⟨?_, by decide, by decide⟩
  intro schedules startTime endTime excludeId hwf hse
  unfold checkForOverlaps
  rw [List.any_eq_true]
  constructor
  · rintro ⟨sch, hmem, hcond⟩
    rw [Bool.and_eq_true, Bool.and_eq_true] at hcond
    rcases hcond with ⟨⟨hex, hact⟩, hov⟩
    rcases hwf sch hmem with ⟨E, hE, hSE⟩
    refine ⟨sch, hmem, hact, ?_, E, hE, ?_⟩
    · intro i hi
      rw [hi] at hex
      simpa using hex
    · exact (overlapsOne_iff startTime.toMs (effectiveEnd startTime endTime)
        sch E hE hSE hse).mp hov
  · rintro ⟨sch, hmem, hact, hex, E, hE, hov⟩
    refine ⟨sch, hmem, ?_⟩
    rw [Bool.and_eq_true, Bool.and_eq_true]
    refine ⟨⟨?_, hact⟩, ?_⟩
    · cases hid : excludeId with
      | none => simp
      | some i =>
        simp only [bne_iff_ne, ne_eq]
        exact hex i hid
    · rcases hwf sch hmem with ⟨E2, hE2, hSE2⟩
      rw [hE2] at hE
      injection hE with hEE
      subst hEE
      exact (overlapsOne_iff startTime.toMs (effectiveEnd startTime endTime)
        sch E2 hE2 hSE2 hse).mpr hov

/-- Witness for `checkForOverlaps_spec` at a concrete schedule store. -/
theorem checkForOverlaps_spec_witness :
    (∀ sch ∈ [exampleSchedule],
      ∃ E, sch.nextRunAt = some E ∧ sch.startTime.toMs ≤ E.toMs) ∧
    ((DateT.mk 2024 0 1 36600000).toMs
        ≤ effectiveEnd (DateT.mk 2024 0 1 36600000)
            (some (DateT.mk 2024 0 1 37500000))) ∧
    (checkForOverlaps [exampleSchedule]
        (DateT.mk 2024 0 1 36600000) (some (DateT.mk 2024 0 1 37500000)) none = true ↔
      ∃ sch ∈ [exampleSchedule], sch.isActive = true
        ∧ (∀ i, (none : Option String) = some i → sch.id ≠ i)
        ∧ ∃ E, sch.nextRunAt = some E
          ∧ claimOverlap (DateT.mk 2024 0 1 36600000).toMs
              (effectiveEnd (DateT.mk 2024 0 1 36600000)
                (some (DateT.mk 2024 0 1 37500000)))
              sch.startTime.toMs E.toMs) := by
  refine ⟨?_, by decide, ?_⟩
  · intro sch hmem
    rw [List.mem_singleton] at hmem
    subst hmem
    exact ⟨DateT.mk 2024 0 1 36900000, rfl, by decide⟩
  · exact checkForOverlaps_spec.1 [exampleSchedule]
      (DateT.mk 2024 0 1 36600000) (some (DateT.mk 2024 0 1 37500000)) none
      (by intro sch hmem
          rw [List.mem_singleton] at hmem
          subst hmem
          exact ⟨DateT.mk 2024 0 1 36900000, rfl, by decide⟩)
      (by decide)

/-! ### Due-schedule selection and one-shot re-arming (CLAIM C5) -/

theorem updateScheduleW_lastRunAt (fuel : Nat) (others : List Schedule)
    (cur : Schedule) (data : ScheduleUpdateIn) (now : DateT) (r : Schedule)
    (hok : updateScheduleW fuel others cur data now = .ok r) :
    r.lastRunAt = if ((data.startTime.isSome || data.repeatPattern.isSome)
        && data.repeatPattern.getD cur.repeatPattern == RepeatPattern.none
        && cur.lastRunAt.isSome
        && (match data.startTime with
            | Option.some t => decide (dlt now t)
            | Option.none => false)) = true then none else cur.lastRunAt := by
  unfold updateScheduleW at hok
  simp only [] at hok
  split at hok
  · split at hok
    · split at hok
      · exact absurd hok (by simp)
      · injection hok with hr
        rw [← hr]
    · split at hok
      · exact absurd hok (by simp)
      · injection hok with hr
        rw [← hr]
  · injection hok with hr
    rw [← hr]

/-- CLAIM C5 — A schedule with repeat policy `none` whose `lastRunAt` is set
is never selected as due by the due-schedule sweep, whatever its
`nextRunAt`; an update through the schedule API re-arms it (clears
`lastRunAt`) exactly when it keeps the policy `none` and moves `startTime`
strictly past now, and any update without a strictly-future new
`startTime` preserves `lastRunAt`; in general a schedule is selected as due
exactly when `nextRunAt ≤ now` (excluding already-run `none` schedules) or
when it has never run and `startTime ≤ now`. -/
theorem dueSchedules_spec :
    (∀ (l : List Schedule) (s : Schedule) (now : DateT),
      s.repeatPattern = .none → s.lastRunAt ≠ none → s ∉ dueSchedules l now)
    ∧ (∀ (s : Schedule) (now : DateT), s.isActive = true →
      (isDue s now = true ↔
        ((∃ t, s.nextRunAt = some t ∧ dle t now)
            ∧ ¬(s.repeatPattern = .none ∧ s.lastRunAt ≠ none))
          ∨ (s.lastRunAt = none ∧ dle s.startTime now)))
    ∧ (∀ (fuel : Nat) (others : List Schedule) (cur : Schedule)
        (data : ScheduleUpdateIn) (now t : DateT) (r : Schedule),
      (data.repeatPattern = none ∧ cur.repeatPattern = .none
          ∨ data.repeatPattern = some .none) →
      cur.lastRunAt ≠ none → data.startTime = some t → dlt now t →
      updateScheduleW fuel others cur data now = .ok r → r.lastRunAt = none)
    ∧ (∀ (fuel : Nat) (others : List Schedule) (cur : Schedule)
        (data : ScheduleUpdateIn) (now : DateT) (r : Schedule),
      (data.startTime = none ∨ ∃ t, data.startTime = some t ∧ ¬ dlt now t) →
      updateScheduleW fuel others cur data now = .ok r →
      r.lastRunAt = cur.lastRunAt) := by
  refine ⟨?_, ?_, ?_, ?_⟩
  · intro l s now hpat hlast hmem
    rcases List.mem_filter.mp hmem with ⟨_, hdue⟩
    cases hl : s.lastRunAt with
    | none => exact hlast hl
    | some tl =>
      unfold isDue at hdue
      rw [hpat, hl] at hdue
      simp at hdue
  · intro s now hact
    unfold isDue
    rw [hact]
    by_cases hp : s.repeatPattern = .none <;>
      cases hl : s.lastRunAt <;>
      cases hn : s.nextRunAt <;>
      simp [hp, hl, hn, dle] <;>
      tauto
  · intro fuel others cur data now t r hpat hlast hst hfut hok
    rw [updateScheduleW_lastRunAt fuel others cur data now r hok]
    have hp : data.repeatPattern.getD cur.repeatPattern = RepeatPattern.none := by
      rcases hpat with ⟨h1, h2⟩ | h1
      · rw [h1]; exact h2
      · rw [h1]; rfl
    rw [if_pos]
    rw [hst, hp]
    simp only [Option.isSome_some, Bool.true_or, beq_self_eq_true, Bool.true_and,
      Bool.and_eq_true, Option.isSome_iff_ne_none, decide_eq_true_eq]
    exact ⟨hlast, hfut⟩
  · intro fuel others cur data now r hst hok
    rw [updateScheduleW_lastRunAt fuel others cur data now r hok]
    rw [if_neg]
    rcases hst with hst | ⟨t, hst, hnf⟩
    · rw [hst]
      simp
    · rw [hst]
      simp only [decide_eq_true_eq, Bool.and_eq_true, not_and]
      intro _
      exact hnf

/-- Witness for `dueSchedules_spec` at a concrete already-run one-shot
schedule. -/
theorem dueSchedules_spec_witness :
    ({ exampleSchedule with
        lastRunAt := some (DateT.mk 2024 0 1 36000000) } : Schedule).repeatPattern
      = .none ∧
    ({ exampleSchedule with
        lastRunAt := some (DateT.mk 2024 0 1 36000000) } : Schedule).lastRunAt
      ≠ none ∧
    { exampleSchedule with lastRunAt := some (DateT.mk 2024 0 1 36000000) }
      ∉ dueSchedules
        [{ exampleSchedule with lastRunAt := some (DateT.mk 2024 0 1 36000000) }]
        (DateT.mk 2024 5 1 0) := by
  refine ⟨rfl, by simp [exampleSchedule], ?_⟩
  exact dueSchedules_spec.1
    [{ exampleSchedule with lastRunAt := some (DateT.mk 2024 0 1 36000000) }]
    { exampleSchedule with lastRunAt := some (DateT.mk 2024 0 1 36000000) }
    (DateT.mk 2024 5 1 0) rfl (by simp [exampleSchedule])

/-! ### Recurrence math (CLAIMS C6 and C7) -/

theorem daysInMonth_lb (y m : Int) : 28 ≤ daysInMonth y m := by
  unfold daysInMonth
  split_ifs <;> omega

/-- The year after a `setMonth(getMonth() + 1)` step (December rolls over). -/
def nextMonthYear (d : DateT) : Int :=
  if d.month = 11 then d.year + 1 else d.year

/-- The month index after a `setMonth(getMonth() + 1)` step. -/
def nextMonthMonth (d : DateT) : Int :=
  if d.month = 11 then 0 else d.month + 1

theorem iterWhile_spec (step : DateT → DateT) (now : DateT) :
    ∀ (fuel : Nat) (d : DateT),
      ¬ dle (iterWhile step now fuel d) now →
      ∃ k, k ≤ fuel ∧ iterWhile step now fuel d = step^[k] d
        ∧ ∀ j, j < k → dle (step^[j] d) now := by
  intro fuel
  induction fuel with
  | zero =>
    intro d hgt
    exact ⟨0, Nat.le_refl 0, rfl, fun j hj => absurd hj (Nat.not_lt_zero j)⟩
  | succ n ih =>
    intro d hgt
    have h1 : iterWhile step now (n + 1) d
        = if dle d now then iterWhile step now n (step d) else d := rfl
    by_cases hle : dle d now
    · rw [h1, if_pos hle] at hgt
      rcases ih (step d) hgt with ⟨k, hk, heq, hall⟩
      refine ⟨k + 1, by omega, ?_, ?_⟩
      · rw [h1, if_pos hle, heq, Function.iterate_succ_apply]
      · intro j hj
        cases j with
        | zero => simpa using hle
        | succ i =>
          rw [Function.iterate_succ_apply]
          exact hall i (by omega)
    · rw [h1, if_neg hle]
      exact ⟨0, Nat.zero_le _, rfl, fun j hj => absurd hj (Nat.not_lt_zero j)⟩

theorem addOneMonthJS_fit (d : DateT)
    (hfit : d.day ≤ daysInMonth (nextMonthYear d) (nextMonthMonth d)) :
    addOneMonthJS d =
      { year := nextMonthYear d, month := nextMonthMonth d,
        day := d.day, tod := d.tod } := by
  unfold nextMonthYear nextMonthMonth at hfit ⊢
  unfold addOneMonthJS
  simp only []
  rw [if_pos hfit]

theorem addOneMonthJS_over (d : DateT)
    (hover : ¬ d.day ≤ daysInMonth (nextMonthYear d) (nextMonthMonth d)) :
    addOneMonthJS d =
      if nextMonthMonth d = 11 then
        { year := nextMonthYear d + 1, month := 0,
          day := d.day - daysInMonth (nextMonthYear d) (nextMonthMonth d),
          tod := d.tod }
      else
        { year := nextMonthYear d, month := nextMonthMonth d + 1,
          day := d.day - daysInMonth (nextMonthYear d) (nextMonthMonth d),
          tod := d.tod } := by
  unfold nextMonthYear nextMonthMonth at hover ⊢
  unfold addOneMonthJS
  simp only []
  rw [if_neg (by omega)]

theorem monthlyStep_keep (d : DateT)
    (hfit : d.day ≤ daysInMonth (nextMonthYear d) (nextMonthMonth d)) :
    monthlyStep d =
      { year := nextMonthYear d, month := nextMonthMonth d,
        day := d.day, tod := d.tod } := by
  unfold monthlyStep
  simp only []
  rw [addOneMonthJS_fit d hfit]
  rw [if_neg (by simp)]

theorem monthlyStep_clamp (d : DateT) (hv : d.Valid)
    (hover : ¬ d.day ≤ daysInMonth (nextMonthYear d) (nextMonthMonth d)) :
    monthlyStep d =
      { year := nextMonthYear d, month := nextMonthMonth d,
        day := daysInMonth (nextMonthYear d) (nextMonthMonth d),
        tod := d.tod } := by
  obtain ⟨hm0, hm11, hd1, hdm, ht0, ht⟩ := hv
  have hlb := daysInMonth_lb (nextMonthYear d) (nextMonthMonth d)
  have hd3 : d.day - daysInMonth (nextMonthYear d) (nextMonthMonth d) ≠ d.day := by
    omega
  have hnm : 0 ≤ nextMonthMonth d := by
    unfold nextMonthMonth
    split_ifs <;> omega
  unfold monthlyStep
  simp only []
  rw [addOneMonthJS_over d hover]
  by_cases hm : nextMonthMonth d = 11
  · rw [if_pos hm]
    rw [if_pos (by simpa using hd3)]
    unfold setDateZeroJS
    simp [hm]
  · rw [if_neg hm]
    rw [if_pos (by simpa using hd3)]
    unfold setDateZeroJS
    have h0 : ¬ (nextMonthMonth d + 1 = 0) := by omega
    simp [h0]

theorem addDaysJS_spec :
    (∀ (k : Int) (d : DateT), d.day + k ≤ daysInMonth d.year d.month →
      addDaysJS k d = { year := d.year, month := d.month,
                        day := d.day + k, tod := d.tod })
    ∧ (∀ (k : Int) (d : DateT), ¬ d.day + k ≤ daysInMonth d.year d.month →
      addDaysJS k d =
        { year := nextMonthYear d, month := nextMonthMonth d,
          day := d.day + k - daysInMonth d.year d.month, tod := d.tod }) := by
  constructor
  · intro k d hfit
    unfold addDaysJS
    rw [if_pos hfit]
  · intro k d hover
    unfold addDaysJS nextMonthYear nextMonthMonth
    rw [if_neg (by omega)]
    by_cases hm11 : d.month = 11
    · rw [if_pos hm11, if_pos hm11, if_pos hm11]
    · rw [if_neg hm11, if_neg hm11, if_neg hm11]

/-- CLAIM C6 — The monthly recurrence advances `nextRunAt` by repeated
one-calendar-month steps until the date is strictly after now (the loop
result is the first iterate past now, all earlier iterates at or before
now); a step whose day-of-month does not exist in the target month is
detected via the day change after `setMonth` and clamped with `setDate(0)`
to the last day of the intended month, so Jan 31 advances to Feb 29 in
2024 and Feb 28 in 2023. -/
theorem monthly_nextRun_spec :
    (∀ d : DateT, d.Valid →
      (¬ d.day ≤ daysInMonth (nextMonthYear d) (nextMonthMonth d) →
        monthlyStep d =
          { year := nextMonthYear d, month := nextMonthMonth d,
            day := daysInMonth (nextMonthYear d) (nextMonthMonth d),
            tod := d.tod })
      ∧ (d.day ≤ daysInMonth (nextMonthYear d) (nextMonthMonth d) →
        monthlyStep d =
          { year := nextMonthYear d, month := nextMonthMonth d,
            day := d.day, tod := d.tod }))
    ∧ (∀ (fuel : Nat) (start now : DateT),
      ¬ dle (iterWhile monthlyStep now fuel start) now →
      ∃ k, k ≤ fuel ∧ iterWhile monthlyStep now fuel start = monthlyStep^[k] start
        ∧ ∀ j, j < k → dle (monthlyStep^[j] start) now)
    ∧ calculateNextRunTime 10 (DateT.mk 2024 0 31 0) .monthly (DateT.mk 2024 1 15 0)
        = DateT.mk 2024 1 29 0
    ∧ calculateNextRunTime 10 (DateT.mk 2023 0 31 0) .monthly (DateT.mk 2023 1 10 0)
        = DateT.mk 2023 1 28 0 := by
  refine ⟨?_, ?_, by decide, by decide⟩
  · intro d hv
    exact ⟨monthlyStep_clamp d hv, monthlyStep_keep d⟩
  · intro fuel start now h
    exact iterWhile_spec monthlyStep now fuel start h

/-- Witness for `monthly_nextRun_spec`: the clamp branch at the concrete
date 2024-01-31. -/
theorem monthly_nextRun_spec_witness :
    (DateT.mk 2024 0 31 0).Valid ∧
    ¬ (DateT.mk 2024 0 31 0).day
        ≤ daysInMonth (nextMonthYear (DateT.mk 2024 0 31 0))
            (nextMonthMonth (DateT.mk 2024 0 31 0)) ∧
    monthlyStep (DateT.mk 2024 0 31 0) =
      { year := nextMonthYear (DateT.mk 2024 0 31 0),
        month := nextMonthMonth (DateT.mk 2024 0 31 0),
        day := daysInMonth (nextMonthYear (DateT.mk 2024 0 31 0))
                 (nextMonthMonth (DateT.mk 2024 0 31 0)),
        tod := (DateT.mk 2024 0 31 0).tod } := by
  refine ⟨by unfold DateT.Valid; decide, by decide, ?_⟩
  exact (monthly_nextRun_spec.1 (DateT.mk 2024 0 31 0)
    (by unfold DateT.Valid; decide)).1 (by decide)

/-- CLAIM C7 — The daily and weekly recurrences advance `nextRunAt` by
repeated steps of 1 and 7 days respectively until strictly after now: the
loop result is the first iterate past now and all earlier iterates are at
or before now; a day step that leaves the current month carries into the
next month (rolling the year over from December), and the concrete daily
advance from 2024-01-01T00:00Z past now = 2024-01-03T12:00Z yields
2024-01-04T00:00Z. -/
theorem daily_weekly_nextRun_spec :
    (∀ (fuel : Nat) (start now : DateT),
      ¬ dle (iterWhile (addDaysJS 1) now fuel start) now →
      ∃ k, k ≤ fuel
        ∧ iterWhile (addDaysJS 1) now fuel start = (addDaysJS 1)^[k] start
        ∧ ∀ j, j < k → dle ((addDaysJS 1)^[j] start) now)
    ∧ (∀ (fuel : Nat) (start now : DateT),
      ¬ dle (iterWhile (addDaysJS 7) now fuel start) now →
      ∃ k, k ≤ fuel
        ∧ iterWhile (addDaysJS 7) now fuel start = (addDaysJS 7)^[k] start
        ∧ ∀ j, j < k → dle ((addDaysJS 7)^[j] start) now)
    ∧ ((∀ (k : Int) (d : DateT), d.day + k ≤ daysInMonth d.year d.month →
        addDaysJS k d = { year := d.year, month := d.month,
                          day := d.day + k, tod := d.tod })
      ∧ (∀ (k : Int) (d : DateT), ¬ d.day + k ≤ daysInMonth d.year d.month →
        addDaysJS k d =
          { year := nextMonthYear d, month := nextMonthMonth d,
            day := d.day + k - daysInMonth d.year d.month, tod := d.tod }))
    ∧ calculateNextRunTime 10 (DateT.mk 2024 0 1 0) .daily
        (DateT.mk 2024 0 3 43200000) = DateT.mk 2024 0 4 0 := by
  refine ⟨?_, ?_, addDaysJS_spec, by decide⟩
  · intro fuel start now h
    exact iterWhile_spec (addDaysJS 1) now fuel start h
  · intro fuel start now h
    exact iterWhile_spec (addDaysJS 7) now fuel start h

/-- Witness for `daily_weekly_nextRun_spec`: the daily loop at concrete
dates, via the first-future-iterate characterization. -/
theorem daily_weekly_nextRun_spec_witness :
    (¬ dle (iterWhile (addDaysJS 1) (DateT.mk 2024 0 3 43200000) 10
        (DateT.mk 2024 0 1 0)) (DateT.mk 2024 0 3 43200000)) ∧
    ∃ k, k ≤ 10
      ∧ iterWhile (addDaysJS 1) (DateT.mk 2024 0 3 43200000) 10
          (DateT.mk 2024 0 1 0) = (addDaysJS 1)^[k] (DateT.mk 2024 0 1 0)
      ∧ ∀ j, j < k →
          dle ((addDaysJS 1)^[j] (DateT.mk 2024 0 1 0))
            (DateT.mk 2024 0 3 43200000) := by
  refine ⟨by decide, ?_⟩
  exact daily_weekly_nextRun_spec.1 10 (DateT.mk 2024 0 1 0)
    (DateT.mk 2024 0 3 43200000) (by decide)

end Zap
